import Mathlib

/-!
Title: Verification of the Safe SQL Gateway (nl-to-sql-solution)

A shallow embedding, in Lean 4, of the SQL-safety subsystem of the
`nl-to-sql-solution` repository (`src/main.py` and
`src/mock_banking_data.py`), together with theorems settling the frozen
claims about it.

Modelling conventions:
* Python strings are modelled as `List Char` (`Str`); `str.upper()` /
  `str.lower()` as character maps using ASCII case conversion (all string
  constants in the program are ASCII).
* Python's `pat in s` substring test is `strHas`.
* Python floats (`round(random.uniform(..), 2)` amounts, interest rates,
  payments) are modelled as integers supplied by a random-choice oracle;
  no claim depends on the numeric ranges or float arithmetic, only on
  record structure, lengths and identifiers.
* `random.*` calls are modelled by oracle structures supplying one value
  per call site; `random.choice(lst)` is modelled as indexing `lst` by an
  oracle index modulo `lst.length`, so the chosen element provably belongs
  to the list, exactly as the library guarantees.
* `sqlparse.parse` is modelled by a character-level tokenizer (whitespace,
  line comments `-- …`, block comments `/* … */`, single-quoted string
  literals, identifier words, single-character punctuation) followed by
  the statement splitter of `sqlparse.engine.statement_splitter`: a
  statement ends after a parenthesis-level-0 `;`, with trailing
  whitespace and line comments attached to the same statement.
  Split-level changes caused by `CASE`/`BEGIN`/`END` keywords are not
  modelled; no claim involves them.
* `re.search(r"LIMIT\s+\d+", …, re.IGNORECASE)` and the corresponding
  `re.sub` are modelled by a character-level automaton (`limitScan`);
  `\s` and `\d` are modelled by their ASCII classes.
-/

/-- Python strings, modelled as lists of characters. -/
abbrev Str := List Char

/-- Conversion from Lean string literals to the model's string type. -/
def str (s : String) : Str := s.toList

/-- Python `str.upper()` (ASCII). -/
def upperS (s : Str) : Str := s.map Char.toUpper

/-- Python `str.lower()` (ASCII). -/
def lowerS (s : Str) : Str := s.map Char.toLower

/-- The ASCII whitespace characters recognised by Python's `str.strip`
and by the regex class `\s`. -/
def wsChars : Str := [' ', '\t', '\n', '\r', '\u000b', '\u000c']

/-- Whitespace test (ASCII model of Python whitespace). -/
def isWSC (c : Char) : Bool := c ∈ wsChars

/-- The decimal digit characters (ASCII model of the regex class `\d`
and of the digits accepted by `int()`). -/
def digitChars : Str := ['0', '1', '2', '3', '4', '5', '6', '7', '8', '9']

/-- Digit test. -/
def isDigitC (c : Char) : Bool := c ∈ digitChars

/-- Identifier-constituent characters for the tokenizer (letters, digits,
underscore — the characters `sqlparse` lexes into a single name/keyword
token). -/
def isWordC (c : Char) : Bool := c.isAlpha || isDigitC c || c = '_'

/-- Python `s.rstrip()`: remove trailing whitespace. -/
def rstripWS (s : Str) : Str := (s.reverse.dropWhile isWSC).reverse

/-- Python `s.rstrip(';')`: remove trailing semicolons. -/
def rstripSemi (s : Str) : Str := (s.reverse.dropWhile (fun c => c = ';')).reverse

/-- Python `s.lstrip()`: remove leading whitespace. -/
def lstripWS (s : Str) : Str := s.dropWhile isWSC

/-- Python `s.strip()`: remove leading and trailing whitespace. -/
def stripWS (s : Str) : Str := rstripWS (lstripWS s)

/-- Python's substring test `pat in s`. -/
def strHas (pat s : Str) : Bool := s.tails.any (fun t => pat.isPrefixOf t)

/-- Python slicing `l[:n]` for an `int` bound `n`: a nonnegative bound
takes the first `n` elements, a negative bound `-k` drops the last `k`. -/
def pyTake (l : List α) (n : Int) : List α :=
  if 0 ≤ n then l.take n.toNat else l.take (l.length - (-n).toNat)

/-- Python `random.choice(lst)` modelled by an oracle-supplied index:
the result is always an element of the (nonempty) list. -/
def pyChoice (l : List α) (d : α) (i : Nat) : α := l.getD (i % l.length) d

/-- Numeric value of a decimal digit string. -/
def digitsVal (ds : Str) : Nat := ds.foldl (fun acc c => acc * 10 + (c.toNat - '0'.toNat)) 0

/-- Python `int(tok)` on a stripped token: optional sign followed by one
or more decimal digits (underscore digit-grouping is not modelled; no
claim depends on it). -/
def pyInt (tok : Str) : Option Int :=
  match tok with
  | [] => none
  | '-' :: ds => if ds ≠ [] ∧ ds.all isDigitC then some (-(Int.ofNat (digitsVal ds))) else none
  | '+' :: ds => if ds ≠ [] ∧ ds.all isDigitC then some (Int.ofNat (digitsVal ds)) else none
  | ds => if ds.all isDigitC then some (Int.ofNat (digitsVal ds)) else none

/-- Lexicographic comparison of strings (Python's `<=` on `str`),
used only as a sort key; no claim depends on the resulting order. -/
def strLe (a b : Str) : Bool :=
  match a, b with
  | [], _ => true
  | _ :: _, [] => false
  | x :: xs, y :: ys => if x = y then strLe xs ys else decide (x < y)

/-- Decimal rendering of a natural number (`f"{n}"`). -/
def natStr (n : Nat) : Str := (toString n).toList

/-!
Section: Tokenizer and statement splitter (model of `sqlparse.parse`)

`sqlparse` lexes the input into whitespace, comments, string literals,
words and punctuation, and its `StatementSplitter` ends a statement after
a parenthesis-level-0 `;`, attaching following whitespace and single-line
comments to the same statement.
-/

/-- Token kinds produced by the lexer model. -/
inductive TokKind
  | ws | word | lineC | blockC | strLit | punct
deriving DecidableEq, Repr

/-- A lexed token: kind and original text. -/
structure Tok where
  kind : TokKind
  text : Str
deriving DecidableEq, Repr

/-- Lexer modes: at a token boundary, or inside a whitespace run, a word,
a `--` line comment, a `/* */` block comment, or a `'…'` string literal. -/
inductive TMode
  | top | mws | mword | mline | mblock | mstr
deriving DecidableEq, Repr

/-- Character-level lexer: one character consumed per step (two for the
two-character delimiters `--`, `/*`, `*/`), so the function is structural
in the input and computes by kernel reduction. `acc` is the text of the
token being built, `out` the reversed list of finished tokens. -/
def tokA : TMode → Str → List Tok → Str → List Tok
  | .top, _, out, [] => out.reverse
  | .mws, acc, out, [] => (⟨.ws, acc⟩ :: out).reverse
  | .mword, acc, out, [] => (⟨.word, acc⟩ :: out).reverse
  | .mline, acc, out, [] => (⟨.lineC, acc⟩ :: out).reverse
  | .mblock, acc, out, [] => (⟨.blockC, acc⟩ :: out).reverse
  | .mstr, acc, out, [] => (⟨.strLit, acc⟩ :: out).reverse
  | .mline, acc, out, c :: rest =>
      if c = '\n' then tokA .top [] (⟨.lineC, acc ++ [c]⟩ :: out) rest
      else tokA .mline (acc ++ [c]) out rest
  | .mblock, acc, out, '*' :: '/' :: rest =>
      tokA .top [] (⟨.blockC, acc ++ ['*', '/']⟩ :: out) rest
  | .mblock, acc, out, c :: rest => tokA .mblock (acc ++ [c]) out rest
  | .mstr, acc, out, '\'' :: rest =>
      tokA .top [] (⟨.strLit, acc ++ ['\'']⟩ :: out) rest
  | .mstr, acc, out, c :: rest => tokA .mstr (acc ++ [c]) out rest
  | .mws, acc, out, '-' :: '-' :: rest => tokA .mline ['-', '-'] (⟨.ws, acc⟩ :: out) rest
  | .mws, acc, out, '/' :: '*' :: rest => tokA .mblock ['/', '*'] (⟨.ws, acc⟩ :: out) rest
  | .mws, acc, out, '\'' :: rest => tokA .mstr ['\''] (⟨.ws, acc⟩ :: out) rest
  | .mws, acc, out, c :: rest =>
      if isWSC c then tokA .mws (acc ++ [c]) out rest
      else if isWordC c then tokA .mword [c] (⟨.ws, acc⟩ :: out) rest
      else tokA .top [] (⟨.punct, [c]⟩ :: ⟨.ws, acc⟩ :: out) rest
  | .mword, acc, out, '-' :: '-' :: rest => tokA .mline ['-', '-'] (⟨.word, acc⟩ :: out) rest
  | .mword, acc, out, '/' :: '*' :: rest => tokA .mblock ['/', '*'] (⟨.word, acc⟩ :: out) rest
  | .mword, acc, out, '\'' :: rest => tokA .mstr ['\''] (⟨.word, acc⟩ :: out) rest
  | .mword, acc, out, c :: rest =>
      if isWordC c then tokA .mword (acc ++ [c]) out rest
      else if isWSC c then tokA .mws [c] (⟨.word, acc⟩ :: out) rest
      else tokA .top [] (⟨.punct, [c]⟩ :: ⟨.word, acc⟩ :: out) rest
  | .top, _, out, '-' :: '-' :: rest => tokA .mline ['-', '-'] out rest
  | .top, _, out, '/' :: '*' :: rest => tokA .mblock ['/', '*'] out rest
  | .top, _, out, '\'' :: rest => tokA .mstr ['\''] out rest
  | .top, _, out, c :: rest =>
      if isWSC c then tokA .mws [c] out rest
      else if isWordC c then tokA .mword [c] out rest
      else tokA .top [] (⟨.punct, [c]⟩ :: out) rest

/-- Lex a query into tokens. -/
def tokenize (q : Str) : List Tok := tokA .top [] [] q

/-- The `;` punctuation token. -/
def isSemiTok (t : Tok) : Bool := t.kind = .punct && t.text = [';']

/-- Parenthesis split-level change of a token (the `CASE`/`BEGIN`/`END`
keyword level changes of `sqlparse` are not modelled; no claim involves
them). -/
def parenDelta (t : Tok) : Int :=
  if t.kind = .punct && t.text = ['('] then 1
  else if t.kind = .punct && t.text = [')'] then -1
  else 0

/-- Tokens that, after a `;`, are still consumed into the ending
statement (whitespace and single-line comments, as in
`sqlparse.engine.statement_splitter`). -/
def eosKind (t : Tok) : Bool := t.kind = .ws || t.kind = .lineC

/-- Statement splitter: mirrors `StatementSplitter.process`. `acc` is the
reversed current statement, `consumeWs` the flag set after a level-0 `;`,
`lvl` the parenthesis level. -/
def splitStmtsAux : List Tok → List Tok → Bool → Int → List (List Tok)
  | [], acc, _, _ => if acc.isEmpty then [] else [acc.reverse]
  | t :: ts, acc, consumeWs, lvl =>
      if consumeWs && !eosKind t then
        let lvl2 := lvl + parenDelta t
        acc.reverse :: splitStmtsAux ts [t] (decide (lvl2 ≤ 0) && isSemiTok t) lvl2
      else
        let lvl2 := lvl + parenDelta t
        splitStmtsAux ts (t :: acc)
          ((consumeWs && eosKind t) || (decide (lvl2 ≤ 0) && isSemiTok t)) lvl2

/-- Split a token stream into statements (model of `sqlparse.parse`). -/
def splitStmts (toks : List Tok) : List (List Tok) := splitStmtsAux toks [] false 0

/-- Significant tokens: the ones `token_first(skip_ws=True, skip_cm=True)`
does not skip. -/
def isSigTok (t : Tok) : Bool := !(t.kind = .ws || t.kind = .lineC || t.kind = .blockC)

/-!
Section: The SQL validator (`validate_sql`, src/main.py lines 472-535)
-/

/-- The failure reasons of `validate_sql`, one constructor per message
template of the source:
`emptyQuery` = "Empty query provided",
`parseFail` = "Unable to parse SQL query",
`invalidStatement` = "Invalid SQL statement",
`forbiddenCommand v` = "Forbidden SQL command: {v}. Only SELECT queries are allowed.",
`notASelect v` = "Only SELECT queries are allowed. Found: {v}",
`forbiddenKeyword k` = "Forbidden keyword detected: {k}". -/
inductive Reason
  | emptyQuery
  | parseFail
  | invalidStatement
  | forbiddenCommand (cmd : Str)
  | notASelect (found : Str)
  | forbiddenKeyword (kw : Str)
deriving DecidableEq, Repr

/-- The denylist of `validate_sql` (`dangerous_keywords`). -/
def dangerous_keywords : List Str :=
  [str "INSERT", str "UPDATE", str "DELETE", str "DROP", str "ALTER", str "CREATE",
   str "TRUNCATE", str "REPLACE", str "GRANT", str "REVOKE", str "EXEC", str "EXECUTE"]

/-- The body of `validate_sql`'s per-statement loop: first-token denylist
check, SELECT check, then the whole-text keyword scan (which the source
performs inside the loop). -/
def checkStatement (query : Str) (stmt : List Tok) : Option Reason :=
  match stmt.find? isSigTok with
  | none => some .invalidStatement
  | some ft =>
    let stmt_value := upperS ft.text
    if stmt_value ∈ dangerous_keywords then some (.forbiddenCommand stmt_value)
    else if stmt_value ≠ str "SELECT" then some (.notASelect stmt_value)
    else
      match dangerous_keywords.find? (fun kw => strHas kw (upperS query)) with
      | some kw => some (.forbiddenKeyword kw)
      | none => none

/-- Source `validate_sql(query)` (src/main.py): returns `(is_valid, reason)`. -/
def validate_sql (query : Str) : Bool × Option Reason :=
  if stripWS query = [] then (false, some .emptyQuery)
  else
    let parsed := splitStmts (tokenize query)
    if parsed = [] then (false, some .parseFail)
    else
      match parsed.findSome? (checkStatement query) with
      | some r => (false, some r)
      | none => (true, none)

/-!
Section: The LIMIT-clause regex (model of `re.search`/`re.sub` on `LIMIT\s+\d+`)

A character-level automaton producing the stream of unmatched characters
(`lit`) and matches (`mat`, carrying the captured digit run).  Because the
character classes of `LIMIT`, `\s` and `\d` are pairwise disjoint and the
pattern word `limit` has no self-overlap, this left-to-right scan computes
exactly the leftmost, non-overlapping, greedy matches of the Python regex.
-/

/-- One piece of the scanned string: an unmatched character, or one match
of `LIMIT\s+\d+` represented by its captured digit run. -/
inductive LPiece
  | lit (c : Char)
  | mat (digits : Str)
deriving DecidableEq, Repr

/-- Automaton states: no partial match; a prefix of the word `LIMIT`
matched (`pend` holds the original characters); the word plus a trailing
whitespace run matched; or inside the digit run (match assured). -/
inductive LState
  | ln
  | part (pend : Str)
  | wsp (pend : Str)
  | dig (ds : Str)
deriving DecidableEq, Repr

/-- The LIMIT-clause scanner. -/
def limitScan : LState → Str → List LPiece
  | .ln, [] => []
  | .part p, [] => p.map .lit
  | .wsp p, [] => p.map .lit
  | .dig ds, [] => [.mat ds]
  | .ln, c :: rest =>
      if c.toUpper = 'L' then limitScan (.part [c]) rest
      else .lit c :: limitScan .ln rest
  | .part p, c :: rest =>
      if p.length < 5 then
        if c.toUpper = (str "LIMIT").getD p.length ' ' then limitScan (.part (p ++ [c])) rest
        else if c.toUpper = 'L' then (p.map .lit) ++ limitScan (.part [c]) rest
        else ((p ++ [c]).map .lit) ++ limitScan .ln rest
      else
        if isWSC c then limitScan (.wsp (p ++ [c])) rest
        else if c.toUpper = 'L' then (p.map .lit) ++ limitScan (.part [c]) rest
        else ((p ++ [c]).map .lit) ++ limitScan .ln rest
  | .wsp p, c :: rest =>
      if isWSC c then limitScan (.wsp (p ++ [c])) rest
      else if isDigitC c then limitScan (.dig [c]) rest
      else if c.toUpper = 'L' then (p.map .lit) ++ limitScan (.part [c]) rest
      else ((p ++ [c]).map .lit) ++ limitScan .ln rest
  | .dig ds, c :: rest =>
      if isDigitC c then limitScan (.dig (ds ++ [c])) rest
      else if c.toUpper = 'L' then .mat ds :: limitScan (.part [c]) rest
      else .mat ds :: .lit c :: limitScan .ln rest

/-- Captured digits of the first match, if any. -/
def firstMat : List LPiece → Option Str
  | [] => none
  | .mat ds :: _ => some ds
  | .lit _ :: rest => firstMat rest

/-- The unmatched characters, in order. -/
def litStr : List LPiece → Str
  | [] => []
  | .lit c :: rest => c :: litStr rest
  | .mat _ :: rest => litStr rest

/-- Source `re.search(r"LIMIT\s+\d+", sql, flags=re.IGNORECASE)`: the captured
row count (`match.group(1)`) of the first match. -/
def searchLimit (s : Str) : Option Str := firstMat (limitScan .ln s)

/-- Source `re.sub(r"LIMIT\s+\d+", "", sql, flags=re.IGNORECASE)`: the input
with every match removed. -/
def subLimitAll (s : Str) : Str := litStr (limitScan .ln s)

/-!
Section: Limit & dialect normalizer (src/main.py lines 187-200, 538-555)
-/

/-- The configured maximum-row ceiling (`MAX_ROWS`). -/
def MAX_ROWS : Nat := 1000

/-- Source `adapt_sql_for_dialect(sql, db_type)` (src/main.py lines 187-200). -/
def adapt_sql_for_dialect (sql : Str) (db_type : Str) : Str :=
  let d := lowerS db_type
  if d = str "oracle" ∧ strHas (str "LIMIT") (upperS sql) then
    match searchLimit sql with
    | some n =>
        rstripSemi (rstripWS (subLimitAll sql)) ++ str " FETCH FIRST " ++ n ++ str " ROWS ONLY"
    | none => sql
  else sql

/-- Source `add_limit_if_missing(query, max_rows=MAX_ROWS)` (src/main.py lines
538-555). -/
def add_limit_if_missing (query : Str) (max_rows : Nat := MAX_ROWS) : Str :=
  if strHas (str "LIMIT") (upperS query) then query
  else rstripSemi (rstripWS query) ++ str " LIMIT " ++ natStr max_rows

/-- The normalization pipeline of the `/query` endpoint (src/main.py lines
850-852): limit injection followed by dialect adaptation. -/
def normalize_sql (query db_type : Str) : Str :=
  adapt_sql_for_dialect (add_limit_if_missing query) db_type

/-!
Section: Mock banking data (src/mock_banking_data.py)

The generators draw from `random`; every random draw is supplied by an
oracle structure, one field per call site, so the theorems quantify over
all possible random outcomes.  `random.choice(lst)` becomes `pyChoice`
(indexing modulo the list length, so the result provably belongs to the
list).  Float quantities (`round(random.uniform(..), 2)`, the
amortisation formula) and `datetime` arithmetic are supplied directly by
the oracle as integers/date strings: no claim depends on their values.
-/

/-- The `first_names` pool (96 entries). -/
def first_names : List Str := [str "James", str "Mary", str "John", str "Patricia",
  str "Robert", str "Jennifer", str "Michael", str "Linda", str "William", str "Barbara",
  str "David", str "Elizabeth", str "Richard", str "Susan", str "Joseph", str "Jessica",
  str "Thomas", str "Sarah", str "Charles", str "Karen", str "Christopher", str "Nancy",
  str "Daniel", str "Lisa", str "Matthew", str "Betty", str "Anthony", str "Margaret",
  str "Mark", str "Sandra", str "Donald", str "Ashley", str "Steven", str "Kimberly",
  str "Paul", str "Emily", str "Andrew", str "Donna", str "Joshua", str "Michelle",
  str "Kenneth", str "Carol", str "Kevin", str "Amanda", str "Brian", str "Dorothy",
  str "George", str "Melissa", str "Edward", str "Deborah", str "Ronald", str "Stephanie",
  str "Timothy", str "Rebecca", str "Jason", str "Sharon", str "Jeffrey", str "Laura",
  str "Ryan", str "Cynthia", str "Jacob", str "Kathleen", str "Gary", str "Amy",
  str "Nicholas", str "Shirley", str "Eric", str "Angela", str "Jonathan", str "Helen",
  str "Stephen", str "Anna", str "Larry", str "Brenda", str "Justin", str "Pamela",
  str "Scott", str "Nicole", str "Brandon", str "Emma", str "Benjamin", str "Samantha",
  str "Samuel", str "Katherine", str "Raymond", str "Christine", str "Gregory", str "Debra",
  str "Frank", str "Rachel", str "Alexander", str "Catherine", str "Patrick", str "Carolyn",
  str "Jack", str "Janet"]

/-- The `last_names` pool (96 entries). -/
def last_names : List Str := [str "Smith", str "Johnson", str "Williams", str "Brown",
  str "Jones", str "Garcia", str "Miller", str "Davis", str "Rodriguez", str "Martinez",
  str "Hernandez", str "Lopez", str "Gonzalez", str "Wilson", str "Anderson", str "Thomas",
  str "Taylor", str "Moore", str "Jackson", str "Martin", str "Lee", str "Perez",
  str "Thompson", str "White", str "Harris", str "Sanchez", str "Clark", str "Ramirez",
  str "Lewis", str "Robinson", str "Walker", str "Young", str "Allen", str "King",
  str "Wright", str "Scott", str "Torres", str "Nguyen", str "Hill", str "Flores",
  str "Green", str "Adams", str "Nelson", str "Baker", str "Hall", str "Rivera",
  str "Campbell", str "Mitchell", str "Carter", str "Roberts", str "Gomez", str "Phillips",
  str "Evans", str "Turner", str "Diaz", str "Parker", str "Cruz", str "Edwards",
  str "Collins", str "Reyes", str "Stewart", str "Morris", str "Morales", str "Murphy",
  str "Cook", str "Rogers", str "Gutierrez", str "Ortiz", str "Morgan", str "Cooper",
  str "Peterson", str "Bailey", str "Reed", str "Kelly", str "Howard", str "Ramos",
  str "Kim", str "Cox", str "Ward", str "Richardson", str "Watson", str "Brooks",
  str "Chavez", str "Wood", str "James", str "Bennett", str "Gray", str "Mendoza",
  str "Ruiz", str "Hughes", str "Price", str "Alvarez", str "Castillo", str "Sanders",
  str "Patel", str "Myers"]

/-- The `cities` pool (25 entries). -/
def cities : List Str := [str "New York", str "Los Angeles", str "Chicago", str "Houston",
  str "Phoenix", str "Philadelphia", str "San Antonio", str "San Diego", str "Dallas",
  str "San Jose", str "Austin", str "Jacksonville", str "Fort Worth", str "Columbus",
  str "Charlotte", str "San Francisco", str "Indianapolis", str "Seattle", str "Denver",
  str "Boston", str "Nashville", str "Detroit", str "Portland", str "Las Vegas", str "Miami"]

/-- The `account_types` pool. -/
def account_types : List Str := [str "Savings", str "Checking", str "Premium Checking",
  str "Business", str "Student"]

/-- The `customer_segments` pool. -/
def customer_segments : List Str := [str "Retail", str "Premium", str "Business",
  str "Corporate", str "Student"]

/-- The `transaction_types` pool. -/
def transaction_types : List Str := [str "ATM Withdrawal", str "Deposit", str "Wire Transfer",
  str "Check Deposit", str "Online Transfer", str "POS Purchase", str "Bill Payment",
  str "Direct Deposit", str "Mobile Payment", str "ACH Transfer", str "International Wire",
  str "Cashback"]

/-- The `transaction_categories` pool. -/
def transaction_categories : List Str := [str "Groceries", str "Utilities", str "Rent",
  str "Salary", str "Healthcare", str "Entertainment", str "Transportation", str "Dining",
  str "Shopping", str "Insurance", str "Investment", str "Education"]

/-- The transaction `statuses` pool (weighted towards `completed`). -/
def txn_statuses : List Str := [str "completed", str "completed", str "completed",
  str "pending", str "failed"]

/-- The transaction `location` pool. -/
def txn_locations : List Str := [str "New York, NY", str "Los Angeles, CA",
  str "Chicago, IL", str "Houston, TX", str "Online"]

/-- The `loan_types` pool. -/
def loan_types : List Str := [str "Personal Loan", str "Home Mortgage", str "Auto Loan",
  str "Business Loan", str "Student Loan", str "Credit Card"]

/-- The `loan_statuses` pool (weighted towards `Active`). -/
def loan_statuses : List Str := [str "Active", str "Active", str "Active", str "Paid Off",
  str "Defaulted", str "Pending"]

/-- A customer record (the dictionary built by `generate_mock_customers`). -/
structure Customer where
  customer_id : Nat
  first_name : Str
  last_name : Str
  email : Str
  phone : Str
  city : Str
  state : Str
  account_type : Str
  customer_segment : Str
  credit_score : Int
  signup_date : Str
  account_balance : Int
  is_active : Bool
deriving DecidableEq, Repr

/-- Placeholder customer used only as the (never-read) `getD` default of
`pyChoice` over a nonempty customer list. -/
def defaultCustomer : Customer :=
  ⟨0, [], [], [], [], [], [], [], [], 0, [], 0, false⟩

/-- Oracle for the random draws of `generate_mock_customers`, indexed by
the customer number `i`.  `credit_score` stands for the segment-dependent
`randint` (its range is not constrained in the model); `signup_date` for
`(base_date + timedelta(days=randint(0, 1800))).strftime("%Y-%m-%d")`. -/
structure CustomersRng where
  segment_choice : Nat → Nat
  credit_score : Nat → Int
  first_name_choice : Nat → Nat
  last_name_choice : Nat → Nat
  phone_mid : Nat → Nat
  phone_last : Nat → Nat
  city_choice : Nat → Nat
  state_over_07 : Nat → Bool
  state_choice : Nat → Nat
  account_type_choice : Nat → Nat
  signup_date : Nat → Str
  account_balance : Nat → Int
  is_active_choice : Nat → Nat

/-- Source `generate_mock_customers()`: 100 customers with `customer_id` 1..100. -/
def generate_mock_customers (g : CustomersRng) : List Customer :=
  (List.range 100).map (fun k =>
    let i := k + 1
    let segment := pyChoice customer_segments [] (g.segment_choice i)
    { customer_id := i
      first_name := pyChoice first_names [] (g.first_name_choice i)
      last_name := pyChoice last_names [] (g.last_name_choice i)
      email := str "customer" ++ natStr i ++ str "@email.com"
      phone := str "+1-555-" ++ natStr (g.phone_mid i) ++ str "-" ++ natStr (g.phone_last i)
      city := pyChoice cities [] (g.city_choice i)
      state := if g.state_over_07 i then str "NY"
               else pyChoice [str "CA", str "TX", str "FL", str "IL"] [] (g.state_choice i)
      account_type := pyChoice account_types [] (g.account_type_choice i)
      customer_segment := segment
      credit_score := g.credit_score i
      signup_date := g.signup_date i
      account_balance := g.account_balance i
      is_active := pyChoice [true, true, true, false] true (g.is_active_choice i) })

/-- A transaction record (the dictionary built by
`generate_mock_transactions`). -/
structure Transaction where
  transaction_id : Nat
  customer_id : Nat
  transaction_type : Str
  category : Str
  amount : Int
  currency : Str
  transaction_date : Str
  transaction_time : Str
  status : Str
  merchant : Str
  location : Str
  description : Str
deriving DecidableEq, Repr

/-- Oracle for the random draws of `generate_mock_transactions`, indexed
by the customer position and the transaction number within the customer.
`amount` stands for the transaction-type-dependent `round(uniform(..), 2)`
(ranges not constrained); `txn_date`/`txn_time` for the formatted random
date and time. -/
structure TxnRng where
  num_transactions : Nat → Nat
  txn_type_choice : Nat → Nat → Nat
  status_choice : Nat → Nat → Nat
  category_choice : Nat → Nat → Nat
  amount : Nat → Nat → Int
  txn_date : Nat → Nat → Str
  txn_time : Nat → Nat → Str
  merchant_num : Nat → Nat → Nat
  location_choice : Nat → Nat → Nat
  desc_category_choice : Nat → Nat → Nat

/-- Source `generate_mock_transactions(customers)`: 5-15 transactions per
customer, each carrying that customer's `customer_id`; `transaction_id`
is a running counter starting at 1. -/
def generate_mock_transactions (customers : List Customer) (g : TxnRng) : List Transaction :=
  let perCustomer := customers.enum.map (fun p =>
    let ci := p.1
    let customer := p.2
    (List.range (g.num_transactions ci)).map (fun j =>
      let txn_type := pyChoice transaction_types [] (g.txn_type_choice ci j)
      fun tid => {
        transaction_id := tid
        customer_id := customer.customer_id
        transaction_type := txn_type
        category := pyChoice transaction_categories [] (g.category_choice ci j)
        amount := g.amount ci j
        currency := str "USD"
        transaction_date := g.txn_date ci j
        transaction_time := g.txn_time ci j
        status := pyChoice txn_statuses [] (g.status_choice ci j)
        merchant := str "Merchant_" ++ natStr (g.merchant_num ci j)
        location := pyChoice txn_locations [] (g.location_choice ci j)
        description := txn_type ++ str " - "
          ++ pyChoice transaction_categories [] (g.desc_category_choice ci j) : Transaction }))
  (perCustomer.flatten).enum.map (fun p => p.2 (p.1 + 1))

/-- A loan record (the dictionary built by `generate_mock_loans`). -/
structure Loan where
  loan_id : Nat
  customer_id : Nat
  loan_type : Str
  principal_amount : Int
  outstanding_balance : Int
  interest_rate : Int
  term_months : Nat
  monthly_payment : Int
  start_date : Str
  status : Str
  credit_score_at_approval : Int
deriving DecidableEq, Repr

/-- Oracle for the random draws of `generate_mock_loans`.  `sample_idx`
models `random.sample(customers, k=60)` by selecting, for each of the 60
slots, a customer by index (the library guarantees sampled elements
belong to the population; sampling without replacement is not needed by
any claim).  `principal`/`interest_rate`/`outstanding`/`monthly_payment`
stand for the loan-type-dependent float draws and formulas (ranges and
arithmetic not constrained); `score_adj` for `randint(-30, 10)`. -/
structure LoanRng where
  sample_idx : Nat → Nat
  num_loans : Nat → Nat
  loan_type_choice : Nat → Nat → Nat
  status_choice : Nat → Nat → Nat
  principal : Nat → Nat → Int
  interest_rate : Nat → Nat → Int
  term_choice : Nat → Nat → Nat
  outstanding : Nat → Nat → Int
  monthly_payment : Nat → Nat → Int
  start_date : Nat → Nat → Str
  score_adj : Nat → Nat → Int

/-- Source `generate_mock_loans(customers)`: 60 sampled customers, 1-3 loans
each, every loan carrying the owning customer's `customer_id` and a
`credit_score_at_approval` derived from that customer's score. -/
def generate_mock_loans (customers : List Customer) (g : LoanRng) : List Loan :=
  let loan_customers := (List.range 60).map (fun k =>
    pyChoice customers defaultCustomer (g.sample_idx k))
  let perCustomer := loan_customers.enum.map (fun p =>
    let li := p.1
    let customer := p.2
    (List.range (g.num_loans li)).map (fun j =>
      let loan_type := pyChoice loan_types [] (g.loan_type_choice li j)
      let status := pyChoice loan_statuses [] (g.status_choice li j)
      let term_months :=
        if loan_type = str "Home Mortgage" then pyChoice [180, 240, 360] 0 (g.term_choice li j)
        else if loan_type = str "Auto Loan" then pyChoice [36, 48, 60, 72] 0 (g.term_choice li j)
        else if loan_type = str "Business Loan" then
          pyChoice [36, 60, 84, 120] 0 (g.term_choice li j)
        else if loan_type = str "Student Loan" then
          pyChoice [120, 180, 240] 0 (g.term_choice li j)
        else pyChoice [24, 36, 48, 60] 0 (g.term_choice li j)
      let outstanding_balance : Int :=
        if status = str "Paid Off" then 0 else g.outstanding li j
      fun lid => {
        loan_id := lid
        customer_id := customer.customer_id
        loan_type := loan_type
        principal_amount := g.principal li j
        outstanding_balance := outstanding_balance
        interest_rate := g.interest_rate li j
        term_months := term_months
        monthly_payment := g.monthly_payment li j
        start_date := g.start_date li j
        status := status
        credit_score_at_approval := customer.credit_score + g.score_adj li j : Loan }))
  (perCustomer.flatten).enum.map (fun p => p.2 (p.1 + 1))

/-!
Section: Mock relational simulator (`_execute_mock_query`, src/main.py 595-760)

The simulator returns lists of heterogeneous row dictionaries; each
dictionary shape appearing in the source is one constructor of `MockRow`
(fields in the source's insertion order).  The `r["…"]` accesses used by
the filter/sort lambdas become the accessor functions below; within any
one routing branch the rows are shape-uniform, so the accessor defaults
are never read (Python would raise `KeyError` otherwise).
-/

/-- One output row of the mock simulator. -/
inductive MockRow
  | custSpend (first_name last_name customer_segment : Str) (total_spent : Int)
  | custLoan (first_name last_name loan_type : Str) (outstanding_balance : Int)
      (status : Str) (credit_score : Int)
  | loanRow (loan_id : Nat) (loan_type : Str)
      (principal_amount outstanding_balance interest_rate monthly_payment : Int) (status : Str)
  | txnJoin (transaction_id : Nat) (first_name last_name transaction_type : Str)
      (amount : Int) (category transaction_date status merchant : Str)
  | txnRow (t : Transaction)
  | custRow (c : Customer)
deriving DecidableEq, Repr

/-- Source `r["status"]`. -/
def MockRow.statusOf : MockRow → Str
  | .custLoan _ _ _ _ s _ => s
  | .loanRow _ _ _ _ _ _ s => s
  | .txnJoin _ _ _ _ _ _ _ s _ => s
  | .txnRow t => t.status
  | _ => []

/-- Source `r["amount"]`. -/
def MockRow.amountOf : MockRow → Int
  | .txnJoin _ _ _ _ a _ _ _ _ => a
  | .txnRow t => t.amount
  | _ => 0

/-- Source `r["transaction_date"]`. -/
def MockRow.dateOf : MockRow → Str
  | .txnJoin _ _ _ _ _ _ d _ _ => d
  | .txnRow t => t.transaction_date
  | _ => []

/-- Source `r["total_spent"]`. -/
def MockRow.totalSpentOf : MockRow → Int
  | .custSpend _ _ _ ts => ts
  | _ => 0

/-- Source `r["outstanding_balance"]`. -/
def MockRow.outBalOf : MockRow → Int
  | .custLoan _ _ _ ob _ _ => ob
  | .loanRow _ _ _ ob _ _ _ => ob
  | _ => 0

/-- Source `r["principal_amount"]`. -/
def MockRow.principalOf : MockRow → Int
  | .loanRow _ _ p _ _ _ _ => p
  | _ => 0

/-- Source `c["customer_segment"]`. -/
def MockRow.segmentOf : MockRow → Str
  | .custRow c => c.customer_segment
  | _ => []

/-- Source `c["is_active"]`. -/
def MockRow.isActiveOf : MockRow → Bool
  | .custRow c => c.is_active
  | _ => false

/-- Source `x["account_balance"]`. -/
def MockRow.balanceOf : MockRow → Int
  | .custRow c => c.account_balance
  | _ => 0

/-- Source `x["credit_score"]`. -/
def MockRow.creditOf : MockRow → Int
  | .custRow c => c.credit_score
  | _ => 0

/-- Source `x["signup_date"]`. -/
def MockRow.signupOf : MockRow → Str
  | .custRow c => c.signup_date
  | _ => []

/-- Text after the last occurrence of `limit` in an (already lowercased)
string: `query_lower.split("limit")[-1]`.  Matches are consumed
non-overlapping left to right, exactly like `str.split`. -/
def afterLastLimitAux : Str → Str → Str
  | 'l' :: 'i' :: 'm' :: 'i' :: 't' :: rest, _ => afterLastLimitAux rest rest
  | _ :: rest, best => afterLastLimitAux rest best
  | [], best => best

/-- Source `query_lower.split("limit")[-1]`. -/
def afterLastLimit (s : Str) : Str := afterLastLimitAux s s

/-- The row-limit extraction of `_execute_mock_query`: the integer token
following the last `limit` occurrence, with 10 as default when absent or
unparseable (the bare `except` catching both `IndexError` and
`ValueError`). -/
def extract_mock_limit (query_lower : Str) : Int :=
  if strHas (str "limit") query_lower then
    let limit_part := stripWS (afterLastLimit query_lower)
    match limit_part.takeWhile (fun c => !isWSC c) with
    | [] => 10
    | tok =>
      match pyInt tok with
      | some n => n
      | none => 10
  else 10

/-- The per-customer completed-transaction total: the entry of the
`customer_spending` dictionary for `cust_id`, or `none` when the customer
has no completed transaction (`cust_id in customer_spending` is false).
`round(…, 2)` is the identity in the integer model. -/
def customer_spending_get (transactions : List Transaction) (cust_id : Nat) : Option Int :=
  let amts := (transactions.filter
    (fun t => decide (t.status = str "completed" ∧ t.customer_id = cust_id))).map
      (fun t => t.amount)
  if amts.isEmpty then none else some amts.sum

/-- Source `_execute_mock_query(query)` (src/main.py lines 595-760), with the
module-level record sets passed explicitly. -/
def execute_mock_query (MOCK_CUSTOMERS : List Customer)
    (MOCK_TRANSACTIONS : List Transaction) (MOCK_LOANS : List Loan)
    (query : Str) : List MockRow :=
  let query_lower := lowerS query
  let limit := extract_mock_limit query_lower
  if strHas (str "customers") query_lower ∧ strHas (str "transactions") query_lower then
    let results := MOCK_CUSTOMERS.filterMap (fun customer =>
      match customer_spending_get MOCK_TRANSACTIONS customer.customer_id with
      | some total => some (MockRow.custSpend customer.first_name customer.last_name
          customer.customer_segment total)
      | none => none)
    let results := List.insertionSort
      (fun a b => MockRow.totalSpentOf b ≤ MockRow.totalSpentOf a) results
    pyTake results limit
  else if strHas (str "customers") query_lower ∧ strHas (str "loans") query_lower then
    let results := MOCK_LOANS.filterMap (fun loan =>
      match MOCK_CUSTOMERS.find? (fun c => decide (c.customer_id = loan.customer_id)) with
      | some customer => some (MockRow.custLoan customer.first_name customer.last_name
          loan.loan_type loan.outstanding_balance loan.status customer.credit_score)
      | none => none)
    let results :=
      if strHas (str "default") query_lower then
        results.filter (fun r =>
          decide (r.statusOf = str "Defaulted" ∨ r.statusOf = str "Pending"))
      else if strHas (str "active") query_lower then
        results.filter (fun r => decide (r.statusOf = str "Active"))
      else results
    pyTake results limit
  else if strHas (str "loans") query_lower then
    let results := MOCK_LOANS.map (fun loan => MockRow.loanRow loan.loan_id loan.loan_type
      loan.principal_amount loan.outstanding_balance loan.interest_rate loan.monthly_payment
      loan.status)
    let results :=
      if strHas (str "default") query_lower then
        results.filter (fun r => decide (r.statusOf = str "Defaulted"))
      else if strHas (str "active") query_lower then
        results.filter (fun r => decide (r.statusOf = str "Active"))
      else results
    let results :=
      if strHas (str "balance") query_lower ∨ strHas (str "debt") query_lower then
        List.insertionSort (fun a b => MockRow.outBalOf b ≤ MockRow.outBalOf a) results
      else
        List.insertionSort (fun a b => MockRow.principalOf b ≤ MockRow.principalOf a) results
    pyTake results limit
  else if strHas (str "transactions") query_lower then
    let results := MOCK_TRANSACTIONS.filterMap (fun txn =>
      if strHas (str "customers") query_lower ∨ strHas (str "join") query_lower then
        match MOCK_CUSTOMERS.find? (fun c => decide (c.customer_id = txn.customer_id)) with
        | some customer => some (MockRow.txnJoin txn.transaction_id customer.first_name
            customer.last_name txn.transaction_type txn.amount txn.category
            txn.transaction_date txn.status txn.merchant)
        | none => none
      else some (MockRow.txnRow txn))
    let results :=
      if strHas (str "pending") query_lower then
        results.filter (fun r => decide (r.statusOf = str "pending"))
      else if strHas (str "failed") query_lower then
        results.filter (fun r => decide (r.statusOf = str "failed"))
      else if strHas (str "completed") query_lower then
        results.filter (fun r => decide (r.statusOf = str "completed"))
      else results
    let results :=
      if strHas (str "large") query_lower ∨ strHas (str "high") query_lower then
        results.filter (fun r => decide (1000 < r.amountOf))
      else results
    let results :=
      if strHas (str "amount") query_lower ∧ strHas (str "order") query_lower then
        List.insertionSort (fun a b => MockRow.amountOf b ≤ MockRow.amountOf a) results
      else
        List.insertionSort (fun a b => strLe (MockRow.dateOf b) (MockRow.dateOf a) = true) results
    pyTake results limit
  else if strHas (str "customers") query_lower ∨ strHas (str "customer") query_lower then
    let results := MOCK_CUSTOMERS.map MockRow.custRow
    let results :=
      if strHas (str "premium") query_lower then
        results.filter (fun r =>
          decide (r.segmentOf = str "Premium" ∨ r.segmentOf = str "Corporate"))
      else if strHas (str "active") query_lower then
        results.filter (fun r => r.isActiveOf)
      else if strHas (str "inactive") query_lower then
        results.filter (fun r => !r.isActiveOf)
      else results
    let results :=
      if strHas (str "balance") query_lower then
        List.insertionSort (fun a b => MockRow.balanceOf b ≤ MockRow.balanceOf a) results
      else if strHas (str "credit") query_lower then
        List.insertionSort (fun a b => MockRow.creditOf b ≤ MockRow.creditOf a) results
      else
        List.insertionSort (fun a b => strLe (MockRow.signupOf b) (MockRow.signupOf a) = true)
          results
    pyTake results limit
  else
    pyTake (MOCK_CUSTOMERS.map MockRow.custRow) limit

/-!
Section: Engine registry and execution router (src/main.py 151-185, 562-592)
-/

/-- The per-backend connection-string configuration read from the
environment (`POSTGRES_URL`, `MYSQL_URL`, `ORACLE_URL`; an empty string
means not configured, as with `os.getenv(.., "")`). -/
structure DbConfig where
  POSTGRES_URL : Str
  MYSQL_URL : Str
  ORACLE_URL : Str
deriving DecidableEq, Repr

/-- Source `SUPPORTED_DB_TYPES` (the values of the `DatabaseType` enum). -/
def SUPPORTED_DB_TYPES : List Str := [str "postgresql", str "mysql", str "oracle"]

/-- Source `get_engine(db_type)` (src/main.py 151-185), modelled as a pure
function of the configuration: an engine handle is identified with its
connection url (the pool parameters are not observable by any claim).
Returns `none` when the backend identifier is unsupported or its
connection string is empty — exactly the source's `None` paths.  The
module-level `_ENGINE_CACHE` only ever memoises the `some` results, so
it does not change this function's `none` behaviour and is not
modelled. -/
def get_engine (cfg : DbConfig) (db_type : Str) : Option Str :=
  let d := lowerS db_type
  if d ∉ SUPPORTED_DB_TYPES then none
  else
    let url := if d = str "postgresql" then cfg.POSTGRES_URL
               else if d = str "mysql" then cfg.MYSQL_URL
               else if d = str "oracle" then cfg.ORACLE_URL
               else []
    if url = [] then none else some url

/-- Outcome of `execute_sql`: a row list, or the `HTTPException` raised
on a database error. -/
inductive ExecOutcome
  | ok (rows : List MockRow)
  | httpError (status_code : Nat) (detail : Str)
deriving DecidableEq, Repr

/-- Source `execute_sql(query, db_type)` (src/main.py 562-592).  The live
database is abstracted by the `live` parameter (`none` = any exception in
the `try` block); the mock record sets are passed explicitly.  The source
truncates over-sized live results to `MAX_ROWS` and collapses every
database exception into `HTTPException(500, "Database query failed")`. -/
def execute_sql (live : Str → Str → Option (List MockRow)) (cfg : DbConfig)
    (MOCK_CUSTOMERS : List Customer) (MOCK_TRANSACTIONS : List Transaction)
    (MOCK_LOANS : List Loan) (query : Str) (db_type : Str) : ExecOutcome :=
  match get_engine cfg db_type with
  | none => .ok (execute_mock_query MOCK_CUSTOMERS MOCK_TRANSACTIONS MOCK_LOANS query)
  | some url =>
      match live url query with
      | none => .httpError 500 (str "Database query failed")
      | some rows => .ok (if MAX_ROWS < rows.length then rows.take MAX_ROWS else rows)

/-!
Section: Claim C7 — mock simulator limit enforcement
-/

/-- A concrete customer-generation oracle (one possible run of the
process's random draws). -/
def cRng0 : CustomersRng :=
  ⟨fun _ => 0, fun _ => 700, fun _ => 0, fun _ => 0, fun _ => 555, fun _ => 1000,
   fun _ => 0, fun _ => false, fun _ => 0, fun _ => 0, fun _ => str "2021-01-01",
   fun _ => 5000, fun _ => 0⟩

/-- A concrete transaction-generation oracle. -/
def tRng0 : TxnRng :=
  ⟨fun _ => 5, fun _ _ => 0, fun _ _ => 0, fun _ _ => 0, fun _ _ => 100,
   fun _ _ => str "2024-03-01", fun _ _ => str "12:00:00", fun _ _ => 1,
   fun _ _ => 0, fun _ _ => 0⟩

/-- A concrete loan-generation oracle. -/
def lRng0 : LoanRng :=
  ⟨fun k => k, fun _ => 1, fun _ _ => 0, fun _ _ => 0, fun _ _ => 10000, fun _ _ => 5,
   fun _ _ => 0, fun _ _ => 8000, fun _ _ => 300, fun _ _ => str "2022-01-01",
   fun _ _ => 0⟩

/-- The mock record sets of one concrete process run. -/
def mockCustomers0 : List Customer := generate_mock_customers cRng0

/-- Transactions of the same concrete run. -/
def mockTransactions0 : List Transaction := generate_mock_transactions mockCustomers0 tRng0

/-- Loans of the same concrete run. -/
def mockLoans0 : List Loan := generate_mock_loans mockCustomers0 lRng0

/-!
Section: Claim C3 — the validator accepts exactly bare-SELECT, keyword-free input
-/

/-- The claim's per-statement condition: the first significant token
(whitespace and comments skipped) uppercases to exactly `SELECT`. -/
def bareSelectStmt (stmt : List Tok) : Bool :=
  match stmt.find? isSigTok with
  | some ft => decide (upperS ft.text = str "SELECT")
  | none => false

/-- The claim's whole-text condition: no denylisted keyword occurs as a
substring of the uppercased raw text. -/
def noDenylisted (query : Str) : Bool :=
  dangerous_keywords.all (fun kw => !strHas kw (upperS query))

/-- The pending (not yet emitted) characters of a scanner state. -/
def pendText : LState → Str
  | .ln => []
  | .part p => p
  | .wsp p => p
  | .dig _ => []

/-- The states the scanner can be in while no `LIMIT` word has been
completed: idle, or holding a proper prefix of the pattern word. -/
def famOK : LState → Prop
  | .ln => True
  | .part p => p ≠ [] ∧ p.length ≤ 4 ∧ upperS p = (str "LIMIT").take p.length
  | .wsp _ => False
  | .dig _ => False

/-- Booleanised form of the list `<+:` relation. -/
theorem isPrefixOf_true_iff (a b : Str) : a.isPrefixOf b = true ↔ a <+: b := by simp

/-- The `strHas` substring test agrees with the infix relation on lists. -/
theorem strHas_infix_iff (pat s : Str) : strHas pat s = true ↔ pat <:+: s := by
  unfold strHas
  rw [List.any_eq_true]
  constructor
  · rintro ⟨t, ht, hp⟩
    rw [List.mem_tails] at ht
    rw [isPrefixOf_true_iff] at hp
    exact List.infix_iff_prefix_suffix.mpr ⟨t, hp, ht⟩
  · intro h
    rcases List.infix_iff_prefix_suffix.mp h with ⟨t, hp, hs⟩
    exact ⟨t, (List.mem_tails _ _).mpr hs, (isPrefixOf_true_iff _ _).mpr hp⟩

theorem strHas_of_isSuffix {pat s t : Str} (h : strHas pat s = true) (hst : s <:+ t) :
    strHas pat t = true := by
  rw [strHas_infix_iff] at h ⊢
  exact h.trans (List.IsSuffix.isInfix hst)

theorem strHas_of_start {pat s t : Str} (h : strHas pat s = true) (hst : s <+: t) :
    strHas pat t = true := by
  rw [strHas_infix_iff] at h ⊢
  exact h.trans (List.IsPrefix.isInfix hst)

theorem strHas_mono {pat s t : Str} (h : strHas pat s = true) (hst : s <:+: t) :
    strHas pat t = true := by
  rw [strHas_infix_iff] at h ⊢
  exact h.trans hst

example : validate_sql (str "SELECT * FROM customers") = (true, none) := by decide

example : validate_sql (str "SELECT 1; SELECT 2") = (true, none) := by decide

example : validate_sql (str "DROP TABLE customers") =
    (false, some (.forbiddenCommand (str "DROP"))) := by decide

example : validate_sql (str "SELECT 1; DROP TABLE x") =
    (false, some (.forbiddenKeyword (str "DROP"))) := by decide

example : validate_sql (str "  ") = (false, some .emptyQuery) := by decide

example : validate_sql (str "-- note\nSELECT 1") = (true, none) := by decide

example : validate_sql (str "SELECT name FROM created_items") =
    (false, some (.forbiddenKeyword (str "CREATE"))) := by decide

example : adapt_sql_for_dialect (str "SELECT * FROM t LIMIT 7") (str "oracle") =
    str "SELECT * FROM t FETCH FIRST 7 ROWS ONLY" := by decide

example : adapt_sql_for_dialect (str "SELECT * FROM t LIMIT 7") (str "postgresql") =
    str "SELECT * FROM t LIMIT 7" := by decide

example : add_limit_if_missing (str "SELECT * FROM t;") =
    str "SELECT * FROM t LIMIT 1000" := by decide

example : add_limit_if_missing (str "SELECT credit_limit FROM t") =
    str "SELECT credit_limit FROM t" := by decide

example : normalize_sql (str "SELECT * FROM t LIMIT 7") (str "oracle") =
    str "SELECT * FROM t FETCH FIRST 7 ROWS ONLY" := by decide

example : normalize_sql (str "SELECT * FROM t FETCH FIRST 7 ROWS ONLY") (str "oracle") =
    str "SELECT * FROM t FETCH FIRST 7 ROWS ONLY FETCH FIRST 1000 ROWS ONLY" := by decide

example : subLimitAll (str "SELECT LIMLIMIT 7IT 9") = str "SELECT LIMIT 9" := by decide

example : searchLimit (str "a LIMIT  007x") = some (str "007") := by decide

/-!
Section: Supporting lemmas
-/

theorem length_pyTake_le (l : List α) (n : Int) (hn : 0 ≤ n) :
    (pyTake l n).length ≤ n.toNat := by
  unfold pyTake
  rw [if_pos hn]
  exact List.length_take_le _ _

theorem pyChoice_mem {l : List α} (d : α) (i : Nat) (h : l ≠ []) : pyChoice l d i ∈ l := by
  unfold pyChoice
  have hlen : 0 < l.length := List.length_pos.mpr h
  have hm : i % l.length < l.length := Nat.mod_lt _ hlen
  rw [List.getD_eq_getElem?_getD, List.getElem?_eq_getElem hm]
  exact List.getElem_mem hm

theorem snd_mem_of_mem_enum {l : List α} {p : Nat × α} (h : p ∈ l.enum) : p.2 ∈ l := by
  have h2 := (List.mem_enum_iff_getElem? (l := l)).mp h
  exact List.getElem?_mem h2

/-- An unsupported backend identifier yields no engine handle. -/
theorem get_engine_unsupported (cfg : DbConfig) (db_type : Str)
    (h : lowerS db_type ∉ SUPPORTED_DB_TYPES) : get_engine cfg db_type = none := by
  unfold get_engine
  rw [if_pos h]

/-- The oracle backend yields no engine handle exactly when `ORACLE_URL`
is unconfigured (empty). -/
theorem get_engine_oracle_none_iff (cfg : DbConfig) :
    get_engine cfg (str "oracle") = none ↔ cfg.ORACLE_URL = [] := by
  simp only [get_engine]
  rw [show lowerS (str "oracle") = str "oracle" from by decide]
  rw [if_neg (by decide)]
  rw [show (if str "oracle" = str "postgresql" then cfg.POSTGRES_URL
        else if str "oracle" = str "mysql" then cfg.MYSQL_URL
        else if str "oracle" = str "oracle" then cfg.ORACLE_URL else []) = cfg.ORACLE_URL
      from by rw [if_neg (by decide), if_neg (by decide), if_pos rfl]]
  split
  · simp_all
  · simp_all

/-!
Section: Claim C6 — `add_limit_if_missing`
-/

/-- C6: for every query without a case-insensitive `LIMIT` substring,
`add_limit_if_missing` strips trailing whitespace, then trailing
semicolons, and appends ` LIMIT 1000` (`max_rows = MAX_ROWS = 1000`);
every query that does contain it is returned unchanged. -/
theorem add_limit_if_missing_spec (query : Str) :
    (strHas (str "LIMIT") (upperS query) = false →
      add_limit_if_missing query = rstripSemi (rstripWS query) ++ str " LIMIT 1000")
    ∧ (strHas (str "LIMIT") (upperS query) = true →
      add_limit_if_missing query = query) := by
  constructor <;> intro h
  · unfold add_limit_if_missing
    rw [if_neg (by simp [h]), List.append_assoc]
    rfl
  · unfold add_limit_if_missing
    rw [if_pos h]

/-- Witness for C6 at concrete queries of both kinds. -/
theorem add_limit_if_missing_spec_witness :
    add_limit_if_missing (str "SELECT * FROM t; ") = str "SELECT * FROM t LIMIT 1000"
    ∧ add_limit_if_missing (str "SELECT * FROM t LIMIT 5") = str "SELECT * FROM t LIMIT 5" := by
  constructor
  · rw [(add_limit_if_missing_spec (str "SELECT * FROM t; ")).1 (by decide)]
    decide
  · exact (add_limit_if_missing_spec (str "SELECT * FROM t LIMIT 5")).2 (by decide)

/-!
Section: Claim C10 — limit injection decided by substring presence only
-/

/-- C10: `add_limit_if_missing` decides by the mere presence of the
substring `LIMIT` (case-insensitive) anywhere in the text: any query
containing it — also inside an identifier or string literal, without an
actual LIMIT clause — is returned unchanged, with no row ceiling
injected. -/
theorem add_limit_substring_presence_suffices (query : Str)
    (h : strHas (str "LIMIT") (upperS query) = true) :
    add_limit_if_missing query = query := by
  unfold add_limit_if_missing
  rw [if_pos h]

/-- Witness for C10: `credit_limit` is only an identifier, yet no
`LIMIT 1000` ceiling is added. -/
theorem add_limit_substring_presence_suffices_witness :
    add_limit_if_missing (str "SELECT credit_limit FROM accounts")
      = str "SELECT credit_limit FROM accounts" :=
  add_limit_substring_presence_suffices (str "SELECT credit_limit FROM accounts") (by decide)

/-!
Section: Claim C8 — fallback to the mock simulator
-/

/-- C8: whenever the engine registry yields no handle (see
`get_engine_unsupported` and `get_engine_oracle_none_iff`: unsupported
backend or empty connection string), `execute_sql` returns exactly the mock simulator's result on the
query, for every possible behaviour of the live-database layer, and never
the error outcome. -/
theorem execute_sql_unconfigured_uses_mock
    (live : Str → Str → Option (List MockRow)) (cfg : DbConfig)
    (cs : List Customer) (ts : List Transaction) (ls : List Loan)
    (query db_type : Str) (h : get_engine cfg db_type = none) :
    execute_sql live cfg cs ts ls query db_type =
      .ok (execute_mock_query cs ts ls query) := by
  unfold execute_sql
  rw [h]

/-- Witness for C8: oracle backend with no `ORACLE_URL` configured —
even a live layer that always fails is never consulted. -/
theorem execute_sql_unconfigured_uses_mock_witness :
    execute_sql (fun _ _ => none) ⟨str "postgresql://db", [], []⟩ [] [] []
        (str "SELECT 1") (str "oracle")
      = .ok (execute_mock_query [] [] [] (str "SELECT 1")) :=
  execute_sql_unconfigured_uses_mock _ _ _ _ _ _ _ (by decide)

/-!
Section: Claim C1 — multi-statement input
-/

/-- C1 (divergence witness): the input `"SELECT 1; SELECT 2"` parses into
two statements, yet `validate_sql` returns the valid verdict `(True,
None)` — the per-statement loop accepts every statement whose first token
is SELECT and the function has no statement-count check, contradicting
the specified rejection of multi-statement input. -/
theorem validate_sql_accepts_stacked_selects :
    (splitStmts (tokenize (str "SELECT 1; SELECT 2"))).length = 2
    ∧ validate_sql (str "SELECT 1; SELECT 2") = (true, none) := by decide

/-!
Section: Claim C4 — normalizer idempotence
-/

/-- C4 (counterexample): for the oracle backend, normalization is not
idempotent.  Normalizing `SELECT * FROM t LIMIT 7` yields one FETCH
clause, but normalizing the result again injects `LIMIT 1000` (the FETCH
form no longer contains the `LIMIT` token) and rewrites it into a second
FETCH clause. -/
theorem normalize_oracle_not_idempotent :
    normalize_sql (str "SELECT * FROM t LIMIT 7") (str "oracle")
      = str "SELECT * FROM t FETCH FIRST 7 ROWS ONLY"
    ∧ normalize_sql (normalize_sql (str "SELECT * FROM t LIMIT 7") (str "oracle"))
        (str "oracle")
      = str "SELECT * FROM t FETCH FIRST 7 ROWS ONLY FETCH FIRST 1000 ROWS ONLY" := by
  decide

/-- C4 (amended): for the postgres and mysql backends the normalizer
returns a query that already carries a (case-insensitive) `LIMIT`
unchanged, so no second LIMIT/FETCH clause is ever added and re-normalizing
is the identity there; for oracle, idempotence fails as witnessed by
`normalize_oracle_not_idempotent`. -/
theorem normalize_limited_pg_mysql_unchanged (query : Str)
    (h : strHas (str "LIMIT") (upperS query) = true) :
    normalize_sql query (str "postgresql") = query
    ∧ normalize_sql query (str "mysql") = query := by
  unfold normalize_sql add_limit_if_missing
  rw [if_pos h]
  unfold adapt_sql_for_dialect
  constructor <;> rw [if_neg (fun hc => absurd hc.1 (by decide))]

/-- Witness for the amended C4 at the spec's own example query. -/
theorem normalize_limited_pg_mysql_unchanged_witness :
    normalize_sql (str "SELECT * FROM t LIMIT 7") (str "postgresql")
      = str "SELECT * FROM t LIMIT 7"
    ∧ normalize_sql (str "SELECT * FROM t LIMIT 7") (str "mysql")
      = str "SELECT * FROM t LIMIT 7" :=
  normalize_limited_pg_mysql_unchanged (str "SELECT * FROM t LIMIT 7") (by decide)

/-- Source `generate_mock_customers` always produces exactly 100 records,
whatever the random draws. -/
theorem length_generate_mock_customers (g : CustomersRng) :
    (generate_mock_customers g).length = 100 := by
  simp [generate_mock_customers]

/-- C7 (counterexample): the query text `"LIMIT 3 limit 100"` contains
the substring `LIMIT 3`, yet the simulator returns 100 rows: the limit is
extracted from the token after the *last* occurrence of `limit`, so the
later `limit 100` overrides the `LIMIT 3` clause.  (The customer set has
100 records in every run, `length_generate_mock_customers`.) -/
theorem mock_limit3_counterexample :
    strHas (str "LIMIT 3") (str "LIMIT 3 limit 100") = true
    ∧ (execute_mock_query mockCustomers0 mockTransactions0 mockLoans0
        (str "LIMIT 3 limit 100")).length = 100 := by decide

/-- C7 (amended): for every query text whose *extracted* limit — the
integer token following the last occurrence of the substring `limit`,
with default 10 — equals a nonnegative `n`, every routing branch of the
mock simulator truncates its result to at most `n` rows as the final
step, for all record sets.  (A query merely containing `LIMIT 3` can
return more rows when a later `limit` occurrence changes the extracted
value, as in `mock_limit3_counterexample`.) -/
theorem mock_query_extracted_limit_bound (cs : List Customer) (ts : List Transaction)
    (ls : List Loan) (query : Str) (n : Int) (hn : 0 ≤ n)
    (h : extract_mock_limit (lowerS query) = n) :
    (execute_mock_query cs ts ls query).length ≤ n.toNat := by
  simp only [execute_mock_query]
  rw [h]
  by_cases h1 : strHas (str "customers") (lowerS query) = true
      ∧ strHas (str "transactions") (lowerS query) = true
  · rw [if_pos h1]; exact length_pyTake_le _ _ hn
  · rw [if_neg h1]
    by_cases h2 : strHas (str "customers") (lowerS query) = true
        ∧ strHas (str "loans") (lowerS query) = true
    · rw [if_pos h2]; exact length_pyTake_le _ _ hn
    · rw [if_neg h2]
      by_cases h3 : strHas (str "loans") (lowerS query) = true
      · rw [if_pos h3]; exact length_pyTake_le _ _ hn
      · rw [if_neg h3]
        by_cases h4 : strHas (str "transactions") (lowerS query) = true
        · rw [if_pos h4]; exact length_pyTake_le _ _ hn
        · rw [if_neg h4]
          by_cases h5 : strHas (str "customers") (lowerS query) = true
              ∨ strHas (str "customer") (lowerS query) = true
          · rw [if_pos h5]; exact length_pyTake_le _ _ hn
          · rw [if_neg h5]; exact length_pyTake_le _ _ hn

/-- Witness for the amended C7: extracted limit 3 on the concrete record
sets bounds the output at 3 rows. -/
theorem mock_query_extracted_limit_bound_witness :
    (execute_mock_query mockCustomers0 mockTransactions0 mockLoans0
      (str "select * from customers limit 3")).length ≤ 3 :=
  mock_query_extracted_limit_bound _ _ _ _ 3 (by decide) (by decide)

/-!
Section: Claim C9 — referential integrity of the generated record sets
-/

theorem mem_generate_mock_transactions {customers : List Customer} {g : TxnRng}
    {t : Transaction} (ht : t ∈ generate_mock_transactions customers g) :
    ∃ c ∈ customers, t.customer_id = c.customer_id := by
  simp only [generate_mock_transactions] at ht
  rw [List.mem_map] at ht
  obtain ⟨⟨pi, pf⟩, hp, rfl⟩ := ht
  have hf := snd_mem_of_mem_enum hp
  rw [List.mem_flatten] at hf
  obtain ⟨inner, hinner, hmem⟩ := hf
  rw [List.mem_map] at hinner
  obtain ⟨⟨qi, qc⟩, hq, rfl⟩ := hinner
  rw [List.mem_map] at hmem
  obtain ⟨j, hj, rfl⟩ := hmem
  exact ⟨qc, snd_mem_of_mem_enum hq, rfl⟩

theorem mem_generate_mock_loans {customers : List Customer} {g : LoanRng}
    (hne : customers ≠ []) {l : Loan} (hl : l ∈ generate_mock_loans customers g) :
    ∃ c ∈ customers, l.customer_id = c.customer_id := by
  simp only [generate_mock_loans] at hl
  rw [List.mem_map] at hl
  obtain ⟨⟨pi, pf⟩, hp, rfl⟩ := hl
  have hf := snd_mem_of_mem_enum hp
  rw [List.mem_flatten] at hf
  obtain ⟨inner, hinner, hmem⟩ := hf
  rw [List.mem_map] at hinner
  obtain ⟨⟨qi, qc⟩, hq, rfl⟩ := hinner
  rw [List.mem_map] at hmem
  obtain ⟨j, hj, rfl⟩ := hmem
  refine ⟨qc, ?_, rfl⟩
  have hq2 := snd_mem_of_mem_enum hq
  rw [List.mem_map] at hq2
  obtain ⟨k, hk, rfl⟩ := hq2
  exact pyChoice_mem _ _ hne

/-- C9: whatever the random draws, every generated transaction's and
every generated loan's `customer_id` equals the `customer_id` of some
record in the customer set the generator was given.  (The record sets are
plain values in this embedding; the simulator only ever copies them —
`results = list(MOCK_CUSTOMERS)`, fresh row dictionaries, slices — so no
code mutates them after generation.) -/
theorem mock_data_referential_integrity (customers : List Customer)
    (gt : TxnRng) (gl : LoanRng) (hne : customers ≠ []) :
    (∀ t ∈ generate_mock_transactions customers gt,
        ∃ c ∈ customers, t.customer_id = c.customer_id)
    ∧ (∀ l ∈ generate_mock_loans customers gl,
        ∃ c ∈ customers, l.customer_id = c.customer_id) :=
  ⟨fun _ ht => mem_generate_mock_transactions ht,
   fun _ hl => mem_generate_mock_loans hne hl⟩

/-- Witness for C9 on the concrete run's record sets. -/
theorem mock_data_referential_integrity_witness :
    (∀ t ∈ generate_mock_transactions mockCustomers0 tRng0,
        ∃ c ∈ mockCustomers0, t.customer_id = c.customer_id)
    ∧ (∀ l ∈ generate_mock_loans mockCustomers0 lRng0,
        ∃ c ∈ mockCustomers0, l.customer_id = c.customer_id) :=
  mock_data_referential_integrity mockCustomers0 tRng0 lRng0 (by decide)

/-- C3: a non-empty input parsing as exactly one statement whose first
significant token is `SELECT`, with no denylisted keyword anywhere in the
raw text, is accepted by `validate_sql`; conversely `validate_sql`
accepts only inputs all of whose statements are bare SELECTs and whose
raw text contains no denylisted keyword. -/
theorem validate_sql_select_characterization (query : Str) :
    ((stripWS query ≠ [] ∧ (splitStmts (tokenize query)).length = 1
        ∧ (∀ s ∈ splitStmts (tokenize query), bareSelectStmt s = true)
        ∧ noDenylisted query = true) →
      validate_sql query = (true, none))
    ∧ (validate_sql query = (true, none) →
      (∀ s ∈ splitStmts (tokenize query), bareSelectStmt s = true)
      ∧ noDenylisted query = true) := by
  have hkw_of_no : noDenylisted query = true →
      dangerous_keywords.find? (fun kw => strHas kw (upperS query)) = none := by
    intro hno
    rw [List.find?_eq_none]
    intro kw hkw
    unfold noDenylisted at hno
    have h2 := List.all_eq_true.mp hno kw hkw
    simpa using h2
  constructor
  · rintro ⟨hne, hlen, hall, hno⟩
    have hnone : ∀ s ∈ splitStmts (tokenize query), checkStatement query s = none := by
      intro s hs
      have hb := hall s hs
      unfold bareSelectStmt at hb
      cases hfind : s.find? isSigTok with
      | none => rw [hfind] at hb; exact absurd hb (by simp)
      | some ft =>
        rw [hfind] at hb
        have hsel : upperS ft.text = str "SELECT" := of_decide_eq_true hb
        simp only [checkStatement, hfind, hsel, hkw_of_no hno]
        rw [if_neg (by decide), if_neg (by simp)]
    simp only [validate_sql]
    rw [if_neg hne]
    have hpar : ¬ (splitStmts (tokenize query) = []) := by
      intro h0; rw [h0] at hlen; simp at hlen
    rw [if_neg hpar, List.findSome?_eq_none_iff.mpr hnone]
  · intro hv
    simp only [validate_sql] at hv
    by_cases hne : stripWS query = []
    · rw [if_pos hne] at hv; exact absurd hv (by simp)
    rw [if_neg hne] at hv
    by_cases hpar : splitStmts (tokenize query) = []
    · rw [if_pos hpar] at hv; exact absurd hv (by simp)
    rw [if_neg hpar] at hv
    cases hfs : (splitStmts (tokenize query)).findSome? (checkStatement query) with
    | some r => rw [hfs] at hv; exact absurd hv (by simp)
    | none =>
      have hnone := List.findSome?_eq_none_iff.mp hfs
      constructor
      · intro s hs
        have hc := hnone s hs
        unfold bareSelectStmt
        cases hfind : s.find? isSigTok with
        | none => simp only [checkStatement, hfind] at hc; exact absurd hc (by simp)
        | some ft =>
          simp only [checkStatement, hfind] at hc
          by_cases hd : upperS ft.text ∈ dangerous_keywords
          · rw [if_pos hd] at hc; exact absurd hc (by simp)
          rw [if_neg hd] at hc
          by_cases hsel : upperS ft.text ≠ str "SELECT"
          · rw [if_pos hsel] at hc; exact absurd hc (by simp)
          · push_neg at hsel
            simp [hsel]
      · obtain ⟨s0, hs0⟩ := List.exists_mem_of_ne_nil _ hpar
        have hc := hnone s0 hs0
        cases hfind : s0.find? isSigTok with
        | none => simp only [checkStatement, hfind] at hc; exact absurd hc (by simp)
        | some ft =>
          simp only [checkStatement, hfind] at hc
          by_cases hd : upperS ft.text ∈ dangerous_keywords
          · rw [if_pos hd] at hc; exact absurd hc (by simp)
          rw [if_neg hd] at hc
          by_cases hsel : upperS ft.text ≠ str "SELECT"
          · rw [if_pos hsel] at hc; exact absurd hc (by simp)
          rw [if_neg hsel] at hc
          unfold noDenylisted
          rw [List.all_eq_true]
          intro kw hkw
          cases hq : dangerous_keywords.find? (fun kw => strHas kw (upperS query)) with
          | some k => rw [hq] at hc; exact absurd hc (by simp)
          | none =>
            have h3 := List.find?_eq_none.mp hq kw hkw
            simpa using h3

/-- Witness for C3 at a concrete accepted query. -/
theorem validate_sql_select_characterization_witness :
    validate_sql (str "SELECT first_name FROM customers WHERE city = 'Boston'")
      = (true, none) :=
  (validate_sql_select_characterization
      (str "SELECT first_name FROM customers WHERE city = 'Boston'")).1
    ⟨by decide, by decide, by decide, by decide⟩

/-!
Section: Claim C2 — leading denylisted command
-/

theorem isSemiTok_of_insig {t : Tok} (h : isSigTok t = false) : isSemiTok t = false := by
  cases t with
  | mk k txt => cases k <;> simp_all [isSigTok, isSemiTok]

/-- Whitespace characters keep the lexer in the whitespace state. -/
theorem tokA_mws_ws_step {c : Char} (hc : isWSC c = true) (acc : Str) (out : List Tok)
    (rest : Str) : tokA .mws acc out (c :: rest) = tokA .mws (acc ++ [c]) out rest := by
  have hc6 : c = ' ' ∨ c = '\t' ∨ c = '\n' ∨ c = '\r' ∨ c = '\u000b' ∨ c = '\u000c' := by
    simpa [isWSC, wsChars] using hc
  rcases hc6 with rfl | rfl | rfl | rfl | rfl | rfl <;> rfl

/-- A whitespace character at a token boundary starts a whitespace run. -/
theorem tokA_top_ws_step {c : Char} (hc : isWSC c = true) (acc : Str) (out : List Tok)
    (rest : Str) : tokA .top acc out (c :: rest) = tokA .mws [c] out rest := by
  have hc6 : c = ' ' ∨ c = '\t' ∨ c = '\n' ∨ c = '\r' ∨ c = '\u000b' ∨ c = '\u000c' := by
    simpa [isWSC, wsChars] using hc
  rcases hc6 with rfl | rfl | rfl | rfl | rfl | rfl <;> rfl

/-- Lexing all-whitespace input yields only insignificant tokens. -/
theorem tokA_all_ws : ∀ (q : Str), (∀ c ∈ q, isWSC c = true) →
    ∀ (acc : Str) (out : List Tok), (∀ u ∈ out, isSigTok u = false) →
      (∀ u ∈ tokA .mws acc out q, isSigTok u = false)
      ∧ (∀ u ∈ tokA .top acc out q, isSigTok u = false) := by
  intro q
  induction q with
  | nil =>
    intro _ acc out hout
    constructor
    · intro u hu
      simp only [tokA] at hu
      rw [List.mem_reverse] at hu
      rcases List.mem_cons.mp hu with rfl | hu2
      · rfl
      · exact hout u hu2
    · intro u hu
      simp only [tokA] at hu
      rw [List.mem_reverse] at hu
      exact hout u hu
  | cons c rest ih =>
    intro hws acc out hout
    have hc := hws c (List.mem_cons_self _ _)
    have hrest : ∀ c' ∈ rest, isWSC c' = true := fun c' h' => hws c' (List.mem_cons_of_mem _ h')
    constructor
    · intro u hu
      rw [tokA_mws_ws_step hc] at hu
      exact (ih hrest _ _ hout).1 u hu
    · intro u hu
      rw [tokA_top_ws_step hc] at hu
      exact (ih hrest _ _ hout).1 u hu

/-- A blank `strip()` result means the whole input is whitespace. -/
theorem stripWS_eq_nil_all_ws {q : Str} (h : stripWS q = []) : ∀ c ∈ q, isWSC c = true := by
  unfold stripWS rstripWS lstripWS at h
  have h1 : (q.dropWhile isWSC).reverse.dropWhile isWSC = [] := by
    have h2 := congrArg List.reverse h
    simpa using h2
  have h2 := List.dropWhile_eq_nil_iff.mp h1
  intro c hc
  have hsplit : c ∈ q.takeWhile isWSC ++ q.dropWhile isWSC := by
    rw [List.takeWhile_append_dropWhile (p := isWSC)]; exact hc
  rcases List.mem_append.mp hsplit with h3 | h3
  · exact List.mem_takeWhile_imp h3
  · exact h2 c (List.mem_reverse.mpr h3)

/-- The head statement produced by the splitter extends the pending
accumulator. -/
theorem splitStmtsAux_head_ext : ∀ (ts acc : List Tok) (flag : Bool) (lvl : Int),
    acc ≠ [] → ∃ s₁ rest, splitStmtsAux ts acc flag lvl = s₁ :: rest ∧
      ∃ post, s₁ = acc.reverse ++ post := by
  intro ts
  induction ts with
  | nil =>
    intro acc flag lvl hne
    refine ⟨acc.reverse, [], ?_, [], by simp⟩
    simp [splitStmtsAux, hne]
  | cons t ts ih =>
    intro acc flag lvl hne
    simp only [splitStmtsAux]
    by_cases hcond : (flag && !eosKind t) = true
    · rw [if_pos hcond]
      exact ⟨acc.reverse, _, rfl, [], by simp⟩
    · rw [if_neg hcond]
      obtain ⟨s₁, rest, heq, post, hpost⟩ := ih (t :: acc) _ _ (by simp)
      refine ⟨s₁, rest, heq, [t] ++ post, ?_⟩
      rw [hpost]
      simp

/-- If the first significant token of the token stream is `tok`, then the
splitter's first statement also has `tok` as its first significant token
(with the `consume_ws` flag clear and an all-insignificant pending
accumulator). -/
theorem splitStmtsAux_find_sig : ∀ (ts acc : List Tok) (lvl : Int) (tok : Tok),
    (∀ x ∈ acc, isSigTok x = false) → ts.find? isSigTok = some tok →
    ∃ s₁ rest, splitStmtsAux ts acc false lvl = s₁ :: rest ∧
      s₁.find? isSigTok = some tok := by
  intro ts
  induction ts with
  | nil => intro acc lvl tok _ hfind; simp at hfind
  | cons t ts ih =>
    intro acc lvl tok hacc hfind
    simp only [splitStmtsAux]
    rw [if_neg (by simp)]
    rw [List.find?_cons] at hfind
    by_cases hsig : isSigTok t = true
    · rw [hsig] at hfind
      have htok : t = tok := by simpa using hfind
      subst htok
      obtain ⟨s₁, rest, heq, post, hpost⟩ := splitStmtsAux_head_ext ts (t :: acc) _ _ (by simp)
      refine ⟨s₁, rest, heq, ?_⟩
      rw [hpost]
      have hrev : (t :: acc).reverse = acc.reverse ++ [t] := by simp
      rw [hrev, List.append_assoc, List.find?_append]
      have hnone : acc.reverse.find? isSigTok = none := by
        rw [List.find?_eq_none]
        intro x hx
        simp [hacc x (List.mem_reverse.mp hx)]
      rw [hnone]
      simp [List.find?_cons, hsig]
    · have hsigf : isSigTok t = false := by simpa using hsig
      rw [hsigf] at hfind
      have hsemi : isSemiTok t = false := isSemiTok_of_insig hsigf
      have hflag : ((false && eosKind t) || (decide ((lvl + parenDelta t) ≤ 0)
          && isSemiTok t)) = false := by
        simp [hsemi]
      rw [hflag]
      exact ih (t :: acc) _ tok
        (by intro x hx; rcases List.mem_cons.mp hx with rfl | hx2
            · exact hsigf
            · exact hacc x hx2) hfind

/-- C2: for every query whose first significant token (ignoring
whitespace and comments) uppercases to a denylisted command word,
`validate_sql` returns the invalid verdict whose reason is the
`forbiddenCommand` kind naming exactly that command. -/
theorem validate_sql_forbidden_command (query : Str) (tok : Tok)
    (hfind : (tokenize query).find? isSigTok = some tok)
    (hdang : upperS tok.text ∈ dangerous_keywords) :
    validate_sql query = (false, some (.forbiddenCommand (upperS tok.text))) := by
  have hmemtok := List.mem_of_find?_eq_some hfind
  have hsig : isSigTok tok = true := List.find?_some hfind
  have hne : ¬ (stripWS query = []) := by
    intro h0
    have hws := stripWS_eq_nil_all_ws h0
    have hall := (tokA_all_ws query hws [] [] (by simp)).2
    have hfalse := hall tok hmemtok
    rw [hfalse] at hsig
    exact Bool.false_ne_true hsig
  obtain ⟨s₁, rest, heq, hs₁⟩ :=
    splitStmtsAux_find_sig (tokenize query) [] 0 tok (by simp) hfind
  simp only [validate_sql]
  rw [if_neg hne]
  have heq' : splitStmts (tokenize query) = s₁ :: rest := heq
  rw [heq']
  rw [if_neg (by simp)]
  rw [List.findSome?_cons]
  have hcs : checkStatement query s₁ = some (.forbiddenCommand (upperS tok.text)) := by
    simp only [checkStatement, hs₁]
    rw [if_pos hdang]
  rw [hcs]

/-- Witness for C2 at a concrete denylisted command. -/
theorem validate_sql_forbidden_command_witness :
    validate_sql (str "INSERT INTO customers VALUES (1)")
      = (false, some (.forbiddenCommand (str "INSERT"))) := by
  have h := validate_sql_forbidden_command (str "INSERT INTO customers VALUES (1)")
    ⟨.word, str "INSERT"⟩ (by decide) (by decide)
  rw [h]
  decide

/-!
Section: Claim C5 — the Oracle LIMIT rewrite

Supporting lemmas about `strHas` and character classes.
-/

theorem strHas_false_of_suffix {pat s s' : Str} (h : strHas pat s = false) (hs : s' <:+ s) :
    strHas pat s' = false := by
  cases h' : strHas pat s'
  · rfl
  · exact absurd (strHas_of_isSuffix h' hs) (by rw [h]; simp)

theorem strHas_false_of_start {pat s s' : Str} (h : strHas pat s = false) (hs : s' <+: s) :
    strHas pat s' = false := by
  cases h' : strHas pat s'
  · rfl
  · exact absurd (strHas_of_start h' hs) (by rw [h]; simp)

theorem strHas_tail_false {pat s : Str} {c : Char} (h : strHas pat (c :: s) = false) :
    strHas pat s = false :=
  strHas_false_of_suffix h (List.suffix_cons c s)

/-- A pattern containing a character that a string lacks is not a
substring of that string. -/
theorem strHas_false_of_not_mem {pat l : Str} {m : Char} (hch : m ∈ pat)
    (hl : ∀ c ∈ l, c ≠ m) : strHas pat l = false := by
  cases h : strHas pat l
  · rfl
  · exact absurd rfl (hl m ((strHas_infix_iff pat l).mp h |>.subset hch))

/-- Splitting a substring occurrence across an append: if the pattern is
in neither part and the right part starts with a character outside the
pattern, the pattern is not in the concatenation. -/
theorem strHas_append_false {pat a b : Str} (ha : strHas pat a = false)
    (hb : strHas pat b = false)
    (hhead : ∀ c, b.head? = some c → c ∉ pat) :
    strHas pat (a ++ b) = false := by
  cases h : strHas pat (a ++ b)
  · rfl
  exfalso
  obtain ⟨s, t2, hst⟩ := (strHas_infix_iff pat (a ++ b)).mp h
  have hspre : s <+: a ++ b := ⟨pat ++ t2, by rw [← List.append_assoc, hst]⟩
  by_cases h1 : s.length + pat.length ≤ a.length
  · -- the occurrence lies inside `a`
    have hsa : s <+: a :=
      List.prefix_of_prefix_length_le hspre (List.prefix_append a b) (by omega)
    obtain ⟨m, rfl⟩ := hsa
    rw [List.append_assoc s m b, List.append_assoc] at hst
    have hmb : pat ++ t2 = m ++ b := List.append_cancel_left hst
    have hpm : pat <+: m :=
      List.prefix_of_prefix_length_le ⟨t2, hmb⟩ (List.prefix_append m b) (by
        rw [List.length_append] at h1
        omega)
    exact absurd
      ((strHas_infix_iff _ _).mpr (hpm.isInfix.trans (List.suffix_append s m).isInfix))
      (by rw [ha]; simp)
  · by_cases h2 : a.length ≤ s.length
    · -- the occurrence lies inside `b`
      have hst' : s ++ (pat ++ t2) = a ++ b := by rw [← List.append_assoc]; exact hst
      have hdrop := congrArg (List.drop a.length) hst'
      rw [List.drop_append_of_le_length h2, List.drop_left] at hdrop
      have hbinf : pat <:+: b :=
        ⟨s.drop a.length, t2, by rw [List.append_assoc]; exact hdrop⟩
      exact absurd ((strHas_infix_iff _ _).mpr hbinf) (by rw [hb]; simp)
    · -- the occurrence straddles the boundary: `b` starts inside the
      -- pattern, so its head is a pattern character
      push_neg at h1 h2
      have heq2 : (s ++ (pat ++ t2)) = a ++ b := by rw [← List.append_assoc]; exact hst
      have hb2 : b = pat.drop (a.length - s.length) ++ t2 := by
        have hdrop := congrArg (List.drop a.length) heq2
        rw [List.drop_left] at hdrop
        rw [List.drop_append_eq_append_drop,
          List.drop_eq_nil_of_le (by omega : s.length ≤ a.length),
          List.drop_append_eq_append_drop,
          show a.length - s.length - pat.length = 0 by omega,
          List.drop_zero] at hdrop
        simpa using hdrop.symm
      have hlendrop : 0 < (pat.drop (a.length - s.length)).length := by
        rw [List.length_drop]
        omega
      cases hpd : pat.drop (a.length - s.length) with
      | nil => rw [hpd] at hlendrop; simp at hlendrop
      | cons x xs =>
        have hxmem : x ∈ pat :=
          List.drop_subset _ _ (hpd ▸ List.mem_cons_self x xs)
        have hbx : b.head? = some x := by
          rw [hb2, hpd]
          rfl
        exact hhead x hbx hxmem

theorem isDigitC_cases {c : Char} (h : isDigitC c = true) :
    c = '0' ∨ c = '1' ∨ c = '2' ∨ c = '3' ∨ c = '4' ∨ c = '5' ∨ c = '6' ∨ c = '7'
    ∨ c = '8' ∨ c = '9' := by
  simpa [isDigitC, digitChars] using h

theorem not_isWSC_of_isDigitC {c : Char} (h : isDigitC c = true) : isWSC c = false := by
  rcases isDigitC_cases h with rfl|rfl|rfl|rfl|rfl|rfl|rfl|rfl|rfl|rfl <;> decide

theorem toUpper_of_isDigitC {c : Char} (h : isDigitC c = true) : c.toUpper = c := by
  rcases isDigitC_cases h with rfl|rfl|rfl|rfl|rfl|rfl|rfl|rfl|rfl|rfl <;> decide

theorem isDigitC_ne_M {c : Char} (h : isDigitC c = true) : c ≠ 'M' := by
  rcases isDigitC_cases h with rfl|rfl|rfl|rfl|rfl|rfl|rfl|rfl|rfl|rfl <;> decide

theorem limit_take_succ {k : Nat} (hk : k < 5) :
    (str "LIMIT").take k ++ [(str "LIMIT").getD k ' '] = (str "LIMIT").take (k + 1) := by
  interval_cases k <;> decide

/-- Entering the pattern word: an `L` character moves any family state to
`part [c]`, emitting the pending characters. -/
theorem limitScan_enter_L {st : LState} (hst : famOK st) {l1 : Char}
    (hu1 : l1.toUpper = 'L') (rest : Str) :
    limitScan st (l1 :: rest) = (pendText st).map .lit ++ limitScan (.part [l1]) rest := by
  cases st with
  | ln =>
    simp only [limitScan, pendText]
    rw [if_pos hu1]
    simp
  | part p =>
    obtain ⟨hne, hle, _⟩ := hst
    have hpos : 0 < p.length := List.length_pos.mpr hne
    have hlt : p.length < 5 := by omega
    have hcond : ¬ (l1.toUpper = (str "LIMIT").getD p.length ' ') := by
      rw [hu1]
      have h14 : p.length = 1 ∨ p.length = 2 ∨ p.length = 3 ∨ p.length = 4 := by omega
      rcases h14 with h | h | h | h <;> rw [h] <;> decide
    simp only [limitScan, pendText]
    rw [if_pos hlt, if_neg hcond, if_pos hu1]
  | wsp p => exact absurd hst (by simp [famOK])
  | dig ds => exact absurd hst (by simp [famOK])

/-- Extending a partial pattern match by its next expected character. -/
theorem limitScan_part_step (p' : Str) (c : Char) (hlt : p'.length < 5)
    (hc : c.toUpper = (str "LIMIT").getD p'.length ' ') (rest : Str) :
    limitScan (.part p') (c :: rest) = limitScan (.part (p' ++ [c])) rest := by
  simp only [limitScan]
  rw [if_pos hlt, if_pos hc]

/-- After the full pattern word, a whitespace character starts the
whitespace run. -/
theorem limitScan_part5_ws (p5 : Str) (h5 : p5.length = 5) {c : Char}
    (hc : isWSC c = true) (rest : Str) :
    limitScan (.part p5) (c :: rest) = limitScan (.wsp (p5 ++ [c])) rest := by
  simp only [limitScan]
  rw [if_neg (by omega), if_pos hc]

/-- The whitespace run is consumed. -/
theorem limitScan_wsp_run : ∀ (ws' : Str), (∀ c ∈ ws', isWSC c = true) →
    ∀ (pend rest : Str),
      limitScan (.wsp pend) (ws' ++ rest) = limitScan (.wsp (pend ++ ws')) rest := by
  intro ws'
  induction ws' with
  | nil => intro _ pend rest; simp
  | cons c cs ih =>
    intro h pend rest
    have hc := h c (List.mem_cons_self _ _)
    rw [List.cons_append]
    simp only [limitScan]
    rw [if_pos hc, ih (fun c' h' => h c' (List.mem_cons_of_mem _ h')) (pend ++ [c]) rest]
    simp

/-- The first digit after the whitespace run commits the match. -/
theorem limitScan_wsp_digit {pend : Str} {c : Char} (hc : isDigitC c = true) (rest : Str) :
    limitScan (.wsp pend) (c :: rest) = limitScan (.dig [c]) rest := by
  simp only [limitScan]
  rw [if_neg (by simp [not_isWSC_of_isDigitC hc]), if_pos hc]

/-- The digit run is consumed into the capture. -/
theorem limitScan_dig_run : ∀ (d' : Str), (∀ c ∈ d', isDigitC c = true) →
    ∀ (acc rest : Str),
      limitScan (.dig acc) (d' ++ rest) = limitScan (.dig (acc ++ d')) rest := by
  intro d'
  induction d' with
  | nil => intro _ acc rest; simp
  | cons c cs ih =>
    intro h acc rest
    have hc := h c (List.mem_cons_self _ _)
    rw [List.cons_append]
    simp only [limitScan]
    rw [if_pos hc, ih (fun c' h' => h c' (List.mem_cons_of_mem _ h')) (acc ++ [c]) rest]
    simp

/-- At the end of the digit run the match is emitted and scanning
restarts as from the idle state. -/
theorem limitScan_dig_exit (acc : Str) : ∀ (t : Str),
    (∀ c, t.head? = some c → isDigitC c = false) →
    limitScan (.dig acc) t = .mat acc :: limitScan .ln t := by
  intro t ht
  cases t with
  | nil => simp [limitScan]
  | cons c rest =>
    have hc : isDigitC c = false := ht c rfl
    simp only [limitScan]
    rw [if_neg (by simp [hc])]
    by_cases hL : c.toUpper = 'L'
    · rw [if_pos hL, if_pos hL]
    · rw [if_neg hL, if_neg hL]

theorem firstMat_append_lits (xs : Str) (rest : List LPiece) :
    firstMat (xs.map .lit ++ rest) = firstMat rest := by
  induction xs with
  | nil => rfl
  | cons x xs ih => simpa [firstMat] using ih

theorem litStr_append_lits (xs : Str) (rest : List LPiece) :
    litStr (xs.map .lit ++ rest) = xs ++ litStr rest := by
  induction xs with
  | nil => rfl
  | cons x xs ih => simpa [litStr] using ih

theorem litStr_map_lit (xs : Str) : litStr (xs.map .lit) = xs := by
  have h := litStr_append_lits xs []
  simpa [litStr] using h

theorem upperS_suffix {s s' : Str} (h : s' <:+ s) : upperS s' <:+ upperS s := by
  obtain ⟨u, rfl⟩ := h
  exact ⟨upperS u, by simp [upperS]⟩

theorem upperS_start {s s' : Str} (h : s' <+: s) : upperS s' <+: upperS s := by
  obtain ⟨u, rfl⟩ := h
  exact ⟨upperS u, by simp [upperS]⟩

theorem strHas_upper_suffix_false {pat s s' : Str} (h : strHas pat (upperS s) = false)
    (hs : s' <:+ s) : strHas pat (upperS s') = false :=
  strHas_false_of_suffix h (upperS_suffix hs)

/-- Scanning text with no (case-insensitive) `LIMIT` occurrence —
relative to the pending prefix — emits every character unchanged. -/
theorem limitScan_clean : ∀ (u : Str) (st : LState), famOK st →
    strHas (str "LIMIT") (upperS (pendText st ++ u)) = false →
    limitScan st u = (pendText st ++ u).map .lit := by
  intro u
  induction u with
  | nil =>
    intro st hst _
    cases st with
    | ln => simp [limitScan, pendText]
    | part p => simp [limitScan, pendText]
    | wsp p => exact absurd hst (by simp [famOK])
    | dig ds => exact absurd hst (by simp [famOK])
  | cons c u ih =>
    intro st hst hcl
    cases st with
    | ln =>
      simp only [pendText, List.nil_append] at hcl ⊢
      by_cases hL : c.toUpper = 'L'
      · rw [limitScan_enter_L (by trivial) hL]
        have hfam : famOK (.part [c]) := by
          unfold famOK
          refine ⟨by simp, by simp, ?_⟩
          simp [upperS, hL]
          decide
        rw [ih (.part [c]) hfam (by simpa [pendText] using hcl)]
        simp [pendText]
      · have hstep : limitScan .ln (c :: u) = .lit c :: limitScan .ln u := by
          simp only [limitScan]
          rw [if_neg hL]
        have hclu : strHas (str "LIMIT") (upperS u) = false :=
          strHas_upper_suffix_false hcl (List.suffix_cons c u)
        rw [hstep, ih .ln trivial (by simpa [pendText] using hclu)]
        simp [pendText]
    | part p =>
      obtain ⟨hne, hle, hup⟩ := hst
      have hpos : 0 < p.length := List.length_pos.mpr hne
      simp only [pendText] at hcl ⊢
      by_cases hmatch : c.toUpper = (str "LIMIT").getD p.length ' '
      · by_cases h4 : p.length = 4
        · exfalso
          have hfull : upperS (p ++ [c]) = str "LIMIT" := by
            rw [show upperS (p ++ [c]) = upperS p ++ [c.toUpper] by simp [upperS]]
            rw [hup, hmatch, limit_take_succ (by omega), h4]
            decide
          have hpre : str "LIMIT" <+: upperS (p ++ c :: u) := by
            rw [show p ++ c :: u = (p ++ [c]) ++ u by simp]
            rw [show upperS ((p ++ [c]) ++ u) = upperS (p ++ [c]) ++ upperS u by
              simp [upperS]]
            rw [hfull]
            exact List.prefix_append _ _
          have htrue : strHas (str "LIMIT") (upperS (p ++ c :: u)) = true := by
            rw [strHas_infix_iff]
            exact hpre.isInfix
          rw [hcl] at htrue
          exact Bool.false_ne_true htrue
        · rw [limitScan_part_step p c (by omega) hmatch]
          have hfam : famOK (.part (p ++ [c])) := by
            unfold famOK
            refine ⟨by simp, by simp; omega, ?_⟩
            rw [show upperS (p ++ [c]) = upperS p ++ [c.toUpper] by simp [upperS]]
            rw [hup, hmatch, limit_take_succ (by omega)]
            simp
          rw [ih _ hfam (by
            simpa [pendText, List.append_assoc] using hcl)]
          simp [pendText]
      · by_cases hL : c.toUpper = 'L'
        · have hstfam : famOK (.part p) := by
            unfold famOK
            exact ⟨hne, hle, hup⟩
          rw [limitScan_enter_L hstfam hL]
          simp only [pendText]
          have hfam : famOK (.part [c]) := by
            unfold famOK
            refine ⟨by simp, by simp, ?_⟩
            simp [upperS, hL]
            decide
          have hcl2 : strHas (str "LIMIT") (upperS ([c] ++ u)) = false :=
            strHas_upper_suffix_false hcl ⟨p, by simp⟩
          rw [ih (.part [c]) hfam (by simpa [pendText] using hcl2)]
          simp [pendText]
        · have hstep : limitScan (.part p) (c :: u)
              = ((p ++ [c]).map .lit) ++ limitScan .ln u := by
            simp only [limitScan]
            rw [if_pos (by omega), if_neg hmatch, if_neg hL]
          have hclu : strHas (str "LIMIT") (upperS u) = false :=
            strHas_upper_suffix_false hcl ⟨p ++ [c], by simp⟩
          rw [hstep, ih .ln trivial (by simpa [pendText] using hclu)]
          simp [pendText]
    | wsp p => exact absurd hst (by simp [famOK])
    | dig ds => exact absurd hst (by simp [famOK])

theorem upperS_eq_limit_shape {L : Str} (hL : upperS L = str "LIMIT") :
    ∃ l1 l2 l3 l4 l5, L = [l1, l2, l3, l4, l5] ∧ l1.toUpper = 'L' ∧ l2.toUpper = 'I'
      ∧ l3.toUpper = 'M' ∧ l4.toUpper = 'I' ∧ l5.toUpper = 'T' := by
  rw [show str "LIMIT" = ['L', 'I', 'M', 'I', 'T'] from by decide] at hL
  rcases L with _ | ⟨a, _ | ⟨b, _ | ⟨c, _ | ⟨d, _ | ⟨e, _ | ⟨f, L'⟩⟩⟩⟩⟩⟩ <;>
    simp [upperS] at hL
  exact ⟨a, b, c, d, e, rfl, hL.1, hL.2.1, hL.2.2.1, hL.2.2.2.1, hL.2.2.2.2⟩

/-- The central run lemma: on input `p ++ L ++ ws ++ d ++ t` — a casing
of `LIMIT`, then whitespace, then digits, with no other case-insensitive
`LIMIT` occurrence in `p ++ t` and `t` not starting with a digit — the
scanner finds exactly one match capturing `d`, and the unmatched
characters are exactly `p ++ t`. -/
theorem limitScan_finds (L ws d t : Str) (hL : upperS L = str "LIMIT")
    (hws : ws ≠ []) (hwsa : ∀ c ∈ ws, isWSC c = true)
    (hd : d ≠ []) (hda : ∀ c ∈ d, isDigitC c = true)
    (ht : ∀ c, t.head? = some c → isDigitC c = false) :
    ∀ (p : Str) (st : LState), famOK st →
      strHas (str "LIMIT") (upperS (pendText st ++ p ++ t)) = false →
      firstMat (limitScan st (p ++ L ++ ws ++ d ++ t)) = some d
      ∧ litStr (limitScan st (p ++ L ++ ws ++ d ++ t)) = pendText st ++ p ++ t := by
  obtain ⟨l1, l2, l3, l4, l5, rfl, hu1, hu2, hu3, hu4, hu5⟩ := upperS_eq_limit_shape hL
  rcases ws with _ | ⟨w1, ws'⟩
  · exact absurd rfl hws
  rcases d with _ | ⟨d1, d'⟩
  · exact absurd rfl hd
  have hws' : ∀ c ∈ ws', isWSC c = true := fun c h => hwsa c (List.mem_cons_of_mem _ h)
  have hw1 : isWSC w1 = true := hwsa w1 (List.mem_cons_self _ _)
  have hd' : ∀ c ∈ d', isDigitC c = true := fun c h => hda c (List.mem_cons_of_mem _ h)
  have hd1 : isDigitC d1 = true := hda d1 (List.mem_cons_self _ _)
  intro p
  induction p with
  | nil =>
    intro st hst hclean
    have hclt : strHas (str "LIMIT") (upperS t) = false :=
      strHas_upper_suffix_false hclean ⟨pendText st ++ [], rfl⟩
    have hrun : limitScan st ([] ++ [l1, l2, l3, l4, l5] ++ (w1 :: ws') ++ (d1 :: d') ++ t)
        = (pendText st).map .lit ++ (.mat (d1 :: d') :: t.map .lit) := by
      simp only [List.nil_append, List.cons_append, List.append_assoc]
      rw [limitScan_enter_L hst hu1]
      rw [limitScan_part_step [l1] l2 (by simp)
        (by rw [hu2, show ([l1] : Str).length = 1 from rfl]; decide)]
      rw [limitScan_part_step ([l1] ++ [l2]) l3 (by simp)
        (by rw [hu3, show ([l1] ++ [l2] : Str).length = 2 from rfl]; decide)]
      rw [limitScan_part_step ([l1] ++ [l2] ++ [l3]) l4 (by simp)
        (by rw [hu4, show ([l1] ++ [l2] ++ [l3] : Str).length = 3 from rfl]; decide)]
      rw [limitScan_part_step ([l1] ++ [l2] ++ [l3] ++ [l4]) l5 (by simp)
        (by rw [hu5, show ([l1] ++ [l2] ++ [l3] ++ [l4] : Str).length = 4 from rfl]; decide)]
      rw [limitScan_part5_ws ([l1] ++ [l2] ++ [l3] ++ [l4] ++ [l5]) (by rfl) hw1]
      rw [limitScan_wsp_run ws' hws']
      rw [limitScan_wsp_digit hd1]
      rw [limitScan_dig_run d' hd']
      rw [limitScan_dig_exit _ t ht]
      rw [limitScan_clean t .ln trivial (by simpa [pendText] using hclt)]
      simp [pendText]
    rw [hrun]
    constructor
    · rw [firstMat_append_lits]
      rfl
    · rw [litStr_append_lits]
      simp only [litStr, litStr_map_lit]
      simp
  | cons c p ih =>
    intro st hst hclean
    have hshape : (c :: p) ++ [l1, l2, l3, l4, l5] ++ (w1 :: ws') ++ (d1 :: d') ++ t
        = c :: (p ++ [l1, l2, l3, l4, l5] ++ (w1 :: ws') ++ (d1 :: d') ++ t) := by
      simp
    rw [hshape]
    cases st with
    | ln =>
      by_cases hLc : c.toUpper = 'L'
      · rw [limitScan_enter_L (show famOK .ln from trivial) hLc]
        have hfam : famOK (.part [c]) := by
          unfold famOK
          refine ⟨by simp, by simp, ?_⟩
          simp [upperS, hLc]
          decide
        obtain ⟨h1, h2⟩ := ih (.part [c]) hfam (by simpa [pendText] using hclean)
        constructor
        · rw [firstMat_append_lits]
          exact h1
        · rw [litStr_append_lits, h2]
          simp [pendText]
      · have hstep : ∀ r, limitScan .ln (c :: r) = .lit c :: limitScan .ln r := by
          intro r
          simp only [limitScan]
          rw [if_neg hLc]
        rw [hstep]
        have hcl2 : strHas (str "LIMIT")
            (upperS (pendText LState.ln ++ p ++ t)) = false := by
          refine strHas_upper_suffix_false hclean ⟨[c], ?_⟩
          simp [pendText]
        obtain ⟨h1, h2⟩ := ih .ln trivial hcl2
        constructor
        · simpa [firstMat] using h1
        · simp only [litStr, h2]
          simp [pendText]
    | part q =>
      obtain ⟨hne, hle, hup⟩ := hst
      have hpos : 0 < q.length := List.length_pos.mpr hne
      by_cases hmatch : c.toUpper = (str "LIMIT").getD q.length ' '
      · by_cases h4 : q.length = 4
        · exfalso
          have hfull : upperS (q ++ [c]) = str "LIMIT" := by
            rw [show upperS (q ++ [c]) = upperS q ++ [c.toUpper] by simp [upperS]]
            rw [hup, hmatch, limit_take_succ (by omega), h4]
            decide
          have hpre : str "LIMIT" <+: upperS (q ++ (c :: p) ++ t) := by
            rw [show q ++ (c :: p) ++ t = (q ++ [c]) ++ (p ++ t) by simp]
            rw [show upperS ((q ++ [c]) ++ (p ++ t))
                = upperS (q ++ [c]) ++ upperS (p ++ t) by simp [upperS]]
            rw [hfull]
            exact List.prefix_append _ _
          have htrue : strHas (str "LIMIT") (upperS (q ++ (c :: p) ++ t)) = true := by
            rw [strHas_infix_iff]
            exact hpre.isInfix
          rw [show pendText (.part q) = q from rfl] at hclean
          rw [hclean] at htrue
          exact Bool.false_ne_true htrue
        · rw [limitScan_part_step q c (by omega) hmatch]
          have hfam : famOK (.part (q ++ [c])) := by
            unfold famOK
            refine ⟨by simp, by simp; omega, ?_⟩
            rw [show upperS (q ++ [c]) = upperS q ++ [c.toUpper] by simp [upperS]]
            rw [hup, hmatch, limit_take_succ (by omega)]
            simp
          obtain ⟨h1, h2⟩ := ih (.part (q ++ [c])) hfam (by
            simp only [pendText] at hclean ⊢
            simpa [List.append_assoc] using hclean)
          refine ⟨h1, ?_⟩
          rw [h2]
          simp [pendText]
      · by_cases hLc : c.toUpper = 'L'
        · have hstfam : famOK (.part q) := by
            unfold famOK
            exact ⟨hne, hle, hup⟩
          rw [limitScan_enter_L hstfam hLc]
          have hfam : famOK (.part [c]) := by
            unfold famOK
            refine ⟨by simp, by simp, ?_⟩
            simp [upperS, hLc]
            decide
          have hcl2 : strHas (str "LIMIT") (upperS ([c] ++ p ++ t)) = false := by
            refine strHas_upper_suffix_false hclean ⟨q, ?_⟩
            simp [pendText]
          obtain ⟨h1, h2⟩ := ih (.part [c]) hfam (by simpa [pendText] using hcl2)
          constructor
          · rw [firstMat_append_lits]
            exact h1
          · rw [litStr_append_lits, h2]
            simp [pendText]
        · have hstep : ∀ r, limitScan (.part q) (c :: r)
              = ((q ++ [c]).map .lit) ++ limitScan .ln r := by
            intro r
            simp only [limitScan]
            rw [if_pos (by omega), if_neg hmatch, if_neg hLc]
          rw [hstep]
          have hcl2 : strHas (str "LIMIT") (upperS (p ++ t)) = false := by
            refine strHas_upper_suffix_false hclean ⟨q ++ [c], ?_⟩
            simp [pendText]
          obtain ⟨h1, h2⟩ := ih .ln trivial (by simpa [pendText] using hcl2)
          constructor
          · rw [firstMat_append_lits]
            exact h1
          · rw [litStr_append_lits, h2]
            simp [pendText]
    | wsp q => exact absurd hst (by simp [famOK])
    | dig ds => exact absurd hst (by simp [famOK])

/-- Reversal exchanges the two containment relations. -/
theorem reverse_start_iff (a b : Str) : a.reverse <+: b.reverse ↔ a <:+ b := by simp

theorem rstripWS_start (s : Str) : rstripWS s <+: s := by
  have h := (reverse_start_iff _ _).mpr (List.dropWhile_suffix (l := s.reverse) isWSC)
  simpa [rstripWS] using h

theorem rstripSemi_start (s : Str) : rstripSemi s <+: s := by
  have h := (reverse_start_iff _ _).mpr
    (List.dropWhile_suffix (l := s.reverse) (fun c => c = ';'))
  simpa [rstripSemi] using h

/-- C5: for every query of the shape `p ++ LIMIT ++ whitespace ++ digits
++ t` — a SELECT query whose only case-insensitive `LIMIT` text is its
limit clause (`p ++ t` contains none, `t` does not continue the digit
run) — the oracle adaptation removes the clause, strips trailing
whitespace and semicolons, and appends ` FETCH FIRST <n> ROWS ONLY` with
the captured count preserved exactly; the result ends with that clause
and contains no `LIMIT` token; the postgres and mysql adaptations return
the query unchanged. -/
theorem adapt_oracle_limit_clause (p L ws d t : Str)
    (hL : upperS L = str "LIMIT")
    (hws : ws ≠ []) (hwsa : ∀ c ∈ ws, isWSC c = true)
    (hd : d ≠ []) (hda : ∀ c ∈ d, isDigitC c = true)
    (ht : ∀ c, t.head? = some c → isDigitC c = false)
    (hclean : strHas (str "LIMIT") (upperS (p ++ t)) = false) :
    adapt_sql_for_dialect (p ++ L ++ ws ++ d ++ t) (str "oracle")
      = rstripSemi (rstripWS (p ++ t)) ++ str " FETCH FIRST " ++ d ++ str " ROWS ONLY"
    ∧ (str " FETCH FIRST " ++ d ++ str " ROWS ONLY") <:+
        adapt_sql_for_dialect (p ++ L ++ ws ++ d ++ t) (str "oracle")
    ∧ strHas (str "LIMIT")
        (upperS (adapt_sql_for_dialect (p ++ L ++ ws ++ d ++ t) (str "oracle"))) = false
    ∧ adapt_sql_for_dialect (p ++ L ++ ws ++ d ++ t) (str "postgresql")
        = p ++ L ++ ws ++ d ++ t
    ∧ adapt_sql_for_dialect (p ++ L ++ ws ++ d ++ t) (str "mysql")
        = p ++ L ++ ws ++ d ++ t := by
  have hmain := limitScan_finds L ws d t hL hws hwsa hd hda ht p .ln trivial
      (by simpa [pendText] using hclean)
  have hsearch : searchLimit (p ++ L ++ ws ++ d ++ t) = some d := hmain.1
  have hsub : subLimitAll (p ++ L ++ ws ++ d ++ t) = p ++ t := by
    have h2 := hmain.2
    simpa [subLimitAll, pendText] using h2
  have hcontains : strHas (str "LIMIT") (upperS (p ++ L ++ ws ++ d ++ t)) = true := by
    rw [strHas_infix_iff]
    refine ⟨upperS p, upperS ws ++ upperS d ++ upperS t, ?_⟩
    rw [← hL]
    simp [upperS]
  have heq : adapt_sql_for_dialect (p ++ L ++ ws ++ d ++ t) (str "oracle")
      = rstripSemi (rstripWS (p ++ t)) ++ str " FETCH FIRST " ++ d ++ str " ROWS ONLY" := by
    simp only [adapt_sql_for_dialect]
    rw [if_pos ⟨by decide, hcontains⟩]
    simp only [hsearch]
    rw [hsub]
  refine ⟨heq, ?_, ?_, ?_, ?_⟩
  · rw [heq]
    exact ⟨rstripSemi (rstripWS (p ++ t)), by simp [List.append_assoc]⟩
  · rw [heq]
    have hA : strHas (str "LIMIT") (upperS (rstripSemi (rstripWS (p ++ t)))) = false := by
      have h1 := rstripWS_start (p ++ t)
      have h2 := rstripSemi_start (rstripWS (p ++ t))
      exact strHas_false_of_start hclean (upperS_start (h2.trans h1))
    have hB : strHas (str "LIMIT")
        (upperS (str " FETCH FIRST " ++ (d ++ str " ROWS ONLY"))) = false := by
      apply strHas_false_of_not_mem (m := 'M') (by decide)
      intro c hc
      rw [show upperS (str " FETCH FIRST " ++ (d ++ str " ROWS ONLY"))
          = upperS (str " FETCH FIRST ") ++ (upperS d ++ upperS (str " ROWS ONLY"))
          by simp [upperS]] at hc
      rcases List.mem_append.mp hc with hc1 | hc2
      · have hfetch : ∀ x ∈ upperS (str " FETCH FIRST "), x ≠ 'M' := by decide
        exact hfetch c hc1
      · rcases List.mem_append.mp hc2 with hc3 | hc4
        · rw [upperS, List.mem_map] at hc3
          obtain ⟨x, hx, rfl⟩ := hc3
          rw [toUpper_of_isDigitC (hda x hx)]
          exact isDigitC_ne_M (hda x hx)
        · have hrows : ∀ x ∈ upperS (str " ROWS ONLY"), x ≠ 'M' := by decide
          exact hrows c hc4
    have hsplit : rstripSemi (rstripWS (p ++ t)) ++ str " FETCH FIRST " ++ d
        ++ str " ROWS ONLY"
        = rstripSemi (rstripWS (p ++ t)) ++ (str " FETCH FIRST " ++ (d ++ str " ROWS ONLY"))
        := by simp [List.append_assoc]
    rw [hsplit]
    rw [show upperS (rstripSemi (rstripWS (p ++ t))
          ++ (str " FETCH FIRST " ++ (d ++ str " ROWS ONLY")))
        = upperS (rstripSemi (rstripWS (p ++ t)))
          ++ upperS (str " FETCH FIRST " ++ (d ++ str " ROWS ONLY")) by simp [upperS]]
    apply strHas_append_false hA hB
    intro c hc
    have hhead : (upperS (str " FETCH FIRST " ++ (d ++ str " ROWS ONLY"))).head?
        = some ' ' := rfl
    rw [hhead] at hc
    have hc2 : c = ' ' := by
      injection hc with h
      exact h.symm
    rw [hc2]
    decide
  · simp only [adapt_sql_for_dialect]
    rw [if_neg (fun hc => absurd hc.1 (by decide))]
  · simp only [adapt_sql_for_dialect]
    rw [if_neg (fun hc => absurd hc.1 (by decide))]

/-- Witness for C5 at the spec's example: `SELECT * FROM t LIMIT 7`
decomposed as `p = "SELECT * FROM t "`, the word `LIMIT`, one space,
the digit `7`, and empty tail. -/
theorem adapt_oracle_limit_clause_witness :
    adapt_sql_for_dialect (str "SELECT * FROM t " ++ str "LIMIT" ++ str " " ++ str "7" ++ [])
        (str "oracle")
      = rstripSemi (rstripWS (str "SELECT * FROM t " ++ [])) ++ str " FETCH FIRST "
        ++ str "7" ++ str " ROWS ONLY" :=
  (adapt_oracle_limit_clause (str "SELECT * FROM t ") (str "LIMIT") (str " ") (str "7") []
    (by decide) (by decide) (by decide) (by decide) (by decide)
    (by intro c hc; simp at hc) (by decide)).1
